import Mathlib

/-!
# go-wxpush-cli: the token fetch, the template send and the exit status of `main`

A shallow embedding of `src/main.go`: the records, `getAccessToken`,
`sendTemplateMessage` and `main`, with the library calls they make.

* Go strings are Lean strings (sequences of Unicode scalar values); text that is
  not well-formed UTF-8 is outside the model.
* `int` is the 64-bit Go `int`.
* The network is a parameter (`World`): it answers every `client.Post` either with
  a transport error or with a response whose body `io.ReadAll` either reads or
  fails to read.  A `client.Post` that never returns (the source sets no timeout)
  is outside the model.
* Every call of `getAccessToken`, `sendTemplateMessage` and `client.Post` is
  recorded in a trace of `Event`s, in program order, so that what a run did and
  did not do can be stated.
* `encoding/json` is modelled by a reader for the JSON grammar (`parseJSON`), the
  rules by which `json.Unmarshal` stores a JSON value in a struct with string and
  int fields (`jsonUnmarshal`), and the writer `json.Marshal` uses for the two
  request records.
* `main` runs on the command-line arguments after the program name.  `flag.Parse`
  is modelled (`flagParse`) with the exits it makes itself: `flag.CommandLine`
  ends the process with status 0 on an undefined `-h` or `-help` and with status 2
  on any other error.
* Console output (`fmt.Printf`, `fmt.Println`, the usage text) is left out.
-/

namespace WxPush

/-! ## JSON text, as `encoding/json` reads it -/

/-- A JSON value.  A number keeps its literal text: what it denotes depends on
the Go type it is stored in. -/
inductive JSONValue where
  | null
  | bool (b : Bool)
  | number (lit : String)
  | string (s : String)
  | array (elems : List JSONValue)
  | object (members : List (String × JSONValue))

/-- Why reading a JSON text stopped: the text is not JSON (a `*json.SyntaxError`,
which is also what nesting deeper than `maxNestingDepth` gives), or the reader's
recursion budget ran out (which `parseJSON_fuel` shows never happens in
`parseJSON`). -/
inductive ScanError where
  | syntaxError
  | outOfFuel
deriving DecidableEq, Repr

/-- The four characters the scanner skips between tokens (`isSpace` in scanner.go). -/
def isSpace (c : Char) : Bool :=
  c = ' ' || c = '\t' || c = '\r' || c = '\n'

/-- Drops leading white space. -/
def skipSpace : List Char → List Char
  | [] => []
  | c :: cs => if isSpace c then skipSpace cs else c :: cs

def isDigit (c : Char) : Bool := '0'.toNat ≤ c.toNat && c.toNat ≤ '9'.toNat

def isHexDigit (c : Char) : Bool :=
  isDigit c || ('a'.toNat ≤ c.toNat && c.toNat ≤ 'f'.toNat)
    || ('A'.toNat ≤ c.toNat && c.toNat ≤ 'F'.toNat)

/-- Value of a hexadecimal digit (0 for any other character). -/
def hexValue (c : Char) : Nat :=
  if isDigit c then c.toNat - '0'.toNat
  else if 'a'.toNat ≤ c.toNat && c.toNat ≤ 'f'.toNat then c.toNat - 'a'.toNat + 10
  else if 'A'.toNat ≤ c.toNat && c.toNat ≤ 'F'.toNat then c.toNat - 'A'.toNat + 10
  else 0

/-- The number written by four hexadecimal digits (`getu4`). -/
def hex4 (a b c d : Char) : Nat :=
  ((hexValue a * 16 + hexValue b) * 16 + hexValue c) * 16 + hexValue d

/-- U+FFFD, which replaces an escape that names no character. -/
def replacementChar : Char := Char.ofNat 0xFFFD

/-- `utf16.IsSurrogate`. -/
def isSurrogate (r : Nat) : Bool := 0xD800 ≤ r && r < 0xE000

/-- `utf16.DecodeRune`: the character of a surrogate pair, if the two halves form one. -/
def decodeSurrogates (r1 r2 : Nat) : Option Char :=
  if 0xD800 ≤ r1 && r1 < 0xDC00 && 0xDC00 ≤ r2 && r2 < 0xE000 then
    some (Char.ofNat ((r1 - 0xD800) * 1024 + (r2 - 0xDC00) + 0x10000))
  else none

/-- The character a one-letter escape stands for, if the letter is one of
`" \ / b f n r t`. -/
def simpleEscape (e : Char) : Option Char :=
  if e = '"' then some '"'
  else if e = '\\' then some '\\'
  else if e = '/' then some '/'
  else if e = 'b' then some (Char.ofNat 8)
  else if e = 'f' then some (Char.ofNat 12)
  else if e = 'n' then some '\n'
  else if e = 'r' then some '\r'
  else if e = 't' then some '\t'
  else none

/-- The accumulator after the pending surrogate escape, if any, has turned out
to be alone: it is written as U+FFFD. -/
def flushSurrogate (pending : Option Nat) (acc : List Char) : List Char :=
  match pending with
  | some _ => replacementChar :: acc
  | none => acc

/-- Reads a string literal after its opening quote: the text it denotes (escapes
resolved as `unquote` does) and what follows the closing quote.  `acc` holds the
characters read so far, last first.  `pending` is a surrogate escape just read
and not yet written: `unquote` looks ahead for a second `\uXXXX` that completes
the pair, and writes U+FFFD for the first when there is none. -/
def scanString : List Char → Option Nat → List Char → Option (String × List Char)
  | [], _, _ => none
  | c :: cs, pending, acc =>
    if c = '"' then some (String.mk (flushSurrogate pending acc).reverse, cs)
    else if c = '\\' then
      match cs with
      | [] => none
      | e :: cs1 =>
        if e = 'u' then
          match cs1 with
          | h1 :: h2 :: h3 :: h4 :: cs2 =>
            if isHexDigit h1 && isHexDigit h2 && isHexDigit h3 && isHexDigit h4 then
              match pending.bind (fun hi => decodeSurrogates hi (hex4 h1 h2 h3 h4)) with
              | some ch => scanString cs2 none (ch :: acc)
              | none =>
                if isSurrogate (hex4 h1 h2 h3 h4) then
                  scanString cs2 (some (hex4 h1 h2 h3 h4)) (flushSurrogate pending acc)
                else
                  scanString cs2 none
                    (Char.ofNat (hex4 h1 h2 h3 h4) :: flushSurrogate pending acc)
            else none
          | _ => none
        else
          match simpleEscape e with
          | some ch => scanString cs1 none (ch :: flushSurrogate pending acc)
          | none => none
    else if c.toNat < 0x20 then none
    else scanString cs none (c :: flushSurrogate pending acc)

/-- Splits off the leading decimal digits. -/
def spanDigits : List Char → List Char × List Char
  | [] => ([], [])
  | c :: cs =>
    if isDigit c then ((spanDigits cs).1.cons c, (spanDigits cs).2) else ([], c :: cs)

/-- Integer part of a number, after the optional minus sign: `0`, or a digit from
`1` to `9` followed by digits. -/
def scanIntPart : List Char → Option (List Char × List Char)
  | [] => none
  | c :: cs =>
    if c = '0' then some ([c], cs)
    else if isDigit c then some (c :: (spanDigits cs).1, (spanDigits cs).2)
    else none

/-- Optional fraction: a dot followed by at least one digit. -/
def scanFraction : List Char → Option (List Char × List Char)
  | [] => some ([], [])
  | c :: cs =>
    if c = '.' then
      match spanDigits cs with
      | ([], _) => none
      | (ds, rest) => some (c :: ds, rest)
    else some ([], c :: cs)

/-- Digits of an exponent, after `e` or `E` and the optional sign: at least one. -/
def scanExpDigits (pre : List Char) (cs : List Char) : Option (List Char × List Char) :=
  match spanDigits cs with
  | ([], _) => none
  | (ds, rest) => some (pre ++ ds, rest)

/-- Optional exponent: `e` or `E`, an optional sign, at least one digit. -/
def scanExponent : List Char → Option (List Char × List Char)
  | [] => some ([], [])
  | c :: cs =>
    if c = 'e' || c = 'E' then
      match cs with
      | [] => none
      | s :: cs1 =>
        if s = '+' || s = '-' then scanExpDigits [c, s] cs1
        else scanExpDigits [c] (s :: cs1)
    else some ([], c :: cs)

/-- Reads a number literal: its text and what follows it. -/
def scanNumber (cs : List Char) : Option (String × List Char) :=
  let signed : List Char × List Char :=
    match cs with
    | [] => ([], [])
    | c :: r => if c = '-' then ([c], r) else ([], c :: r)
  match scanIntPart signed.2 with
  | none => none
  | some (ip, r1) =>
    match scanFraction r1 with
    | none => none
    | some (fp, r2) =>
      match scanExponent r2 with
      | none => none
      | some (ep, r3) => some (String.mk (signed.1 ++ ip ++ fp ++ ep), r3)

/-- Removes the given word from the head of the text, if the text starts with it. -/
def stripWord : List Char → List Char → Option (List Char)
  | [], cs => some cs
  | _ :: _, [] => none
  | w :: ws, c :: cs => if c = w then stripWord ws cs else none

/-- Deepest nesting of arrays and objects the scanner accepts (scanner.go). -/
def maxNestingDepth : Nat := 10000

mutual
/-- Reads one JSON value at the head of the text (no leading white space) inside
`depth` open arrays and objects. -/
def parseValue : Nat → Nat → List Char → Except ScanError (JSONValue × List Char)
  | 0, _, _ => .error .outOfFuel
  | _ + 1, _, [] => .error .syntaxError
  | fuel + 1, depth, c :: cs =>
    if c = '{' then
      if depth + 1 ≤ maxNestingDepth then
        match skipSpace cs with
        | [] => .error .syntaxError
        | d :: r =>
          if d = '}' then .ok (.object [], r)
          else parseMembers fuel (depth + 1) (d :: r) []
      else .error .syntaxError
    else if c = '[' then
      if depth + 1 ≤ maxNestingDepth then
        match skipSpace cs with
        | [] => .error .syntaxError
        | d :: r =>
          if d = ']' then .ok (.array [], r)
          else parseElements fuel (depth + 1) (d :: r) []
      else .error .syntaxError
    else if c = '"' then
      match scanString cs none [] with
      | some (s, r) => .ok (.string s, r)
      | none => .error .syntaxError
    else if c = '-' || isDigit c then
      match scanNumber (c :: cs) with
      | some (lit, r) => .ok (.number lit, r)
      | none => .error .syntaxError
    else if c = 't' then
      match stripWord "rue".data cs with
      | some r => .ok (.bool true, r)
      | none => .error .syntaxError
    else if c = 'f' then
      match stripWord "alse".data cs with
      | some r => .ok (.bool false, r)
      | none => .error .syntaxError
    else if c = 'n' then
      match stripWord "ull".data cs with
      | some r => .ok (.null, r)
      | none => .error .syntaxError
    else .error .syntaxError
/-- Reads the elements of an array from the head of an element on, up to and
including the closing bracket.  `acc` holds the elements read so far, last first. -/
def parseElements : Nat → Nat → List Char → List JSONValue →
    Except ScanError (JSONValue × List Char)
  | 0, _, _, _ => .error .outOfFuel
  | fuel + 1, depth, cs, acc =>
    match parseValue fuel depth cs with
    | .error e => .error e
    | .ok (v, r) =>
      match skipSpace r with
      | [] => .error .syntaxError
      | d :: r1 =>
        if d = ',' then parseElements fuel depth (skipSpace r1) (v :: acc)
        else if d = ']' then .ok (.array (v :: acc).reverse, r1)
        else .error .syntaxError
/-- Reads the members of an object from the head of a key on, up to and including
the closing brace.  `acc` holds the members read so far, last first. -/
def parseMembers : Nat → Nat → List Char → List (String × JSONValue) →
    Except ScanError (JSONValue × List Char)
  | 0, _, _, _ => .error .outOfFuel
  | _ + 1, _, [], _ => .error .syntaxError
  | fuel + 1, depth, q :: cs, acc =>
    if q = '"' then
      match scanString cs none [] with
      | none => .error .syntaxError
      | some (key, r) =>
        match skipSpace r with
        | [] => .error .syntaxError
        | colon :: r1 =>
          if colon = ':' then
            match parseValue fuel depth (skipSpace r1) with
            | .error e => .error e
            | .ok (v, r2) =>
              match skipSpace r2 with
              | [] => .error .syntaxError
              | d :: r3 =>
                if d = ',' then parseMembers fuel depth (skipSpace r3) ((key, v) :: acc)
                else if d = '}' then .ok (.object ((key, v) :: acc).reverse, r3)
                else .error .syntaxError
          else .error .syntaxError
    else .error .syntaxError
end

/-- Reads a whole JSON text: white space, one value, white space, end of text
(`checkValid`, with the value kept). -/
def parseJSON (text : String) : Except ScanError JSONValue :=
  match parseValue (2 * text.data.length + 2) 0 (skipSpace text.data) with
  | .error e => .error e
  | .ok (v, rest) =>
    match skipSpace rest with
    | [] => .ok v
    | _ :: _ => .error .syntaxError

/-- The text is JSON: `json.Valid`. -/
def jsonValid (text : String) : Bool :=
  match parseJSON text with
  | .ok _ => true
  | .error _ => false

/-! ## Errors, and `json.Unmarshal` into a struct of strings and ints -/

/-- The Go errors the program can meet. -/
inductive GoError where
  /-- Failure of `client.Post`: no response was received. -/
  | transport (cause : String)
  /-- Failure of `io.ReadAll` on the response body. -/
  | bodyRead (cause : String)
  /-- The text given to `json.Unmarshal` is not JSON (`*json.SyntaxError`). -/
  | jsonSyntaxError
  /-- A JSON value of kind `value` cannot be stored in the Go field `field`
  (`*json.UnmarshalTypeError`); `field` is empty for the struct itself. -/
  | jsonUnmarshalType (value : String) (field : String)
deriving DecidableEq, Repr

/-- Folding of one character for the case-insensitive match of an object key with
a field name (`foldName` in fold.go): ASCII letters fold to upper case, and so do
the two other characters whose simple case folding reaches an ASCII letter, the
Kelvin sign and the long s.  (All field names here are ASCII, so how the remaining
characters fold among themselves plays no part.) -/
def foldRune (c : Char) : Char :=
  if 'a'.toNat ≤ c.toNat && c.toNat ≤ 'z'.toNat then Char.ofNat (c.toNat - 32)
  else if c.toNat = 0x212A then 'K'
  else if c.toNat = 0x17F then 'S'
  else c

def foldName (s : String) : List Char := s.data.map foldRune

/-- A struct field that `json.Unmarshal` can fill: its JSON name and how a JSON
value is stored in it (the error, if any, is the one `d.saveError` receives). -/
structure Field (α : Type) where
  name : String
  store : JSONValue → α → α × Option GoError

/-- The field an object key selects: the field of exactly that name, or else the
first whose name equals the key under case folding (`d.object`). -/
def findField {α : Type} (fields : List (Field α)) (key : String) : Option (Field α) :=
  match fields.find? (fun f => decide (f.name = key)) with
  | some f => some f
  | none => fields.find? (fun f => decide (foldName f.name = foldName key))

/-- Value of a list of decimal digits. -/
def digitsValue (ds : List Char) : Nat :=
  ds.foldl (fun n d => 10 * n + (d.toNat - '0'.toNat)) 0

/-- `strconv.ParseInt(lit, 10, 64)`: an optional sign and at least one digit,
within the range of `int64`. -/
def parseInt64 (lit : String) : Option Int :=
  match lit.data with
  | [] => none
  | c :: ds =>
    if c = '-' then
      if !ds.isEmpty && ds.all isDigit && digitsValue ds ≤ 2 ^ 63 then
        some (-(digitsValue ds : Int))
      else none
    else if c = '+' then
      if !ds.isEmpty && ds.all isDigit && digitsValue ds < 2 ^ 63 then
        some (digitsValue ds : Int)
      else none
    else
      if (c :: ds).all isDigit && digitsValue (c :: ds) < 2 ^ 63 then
        some (digitsValue (c :: ds) : Int)
      else none

/-- Storing a JSON value in a Go `string` (`literalStore`, `d.array`, `d.object`
on a value of kind String): a string is stored, `null` leaves the field as it is,
anything else is a type error. -/
def storeString (field : String) (j : JSONValue) (cur : String) : String × Option GoError :=
  match j with
  | .string s => (s, none)
  | .null => (cur, none)
  | .bool _ => (cur, some (.jsonUnmarshalType "bool" field))
  | .number _ => (cur, some (.jsonUnmarshalType "number" field))
  | .array _ => (cur, some (.jsonUnmarshalType "array" field))
  | .object _ => (cur, some (.jsonUnmarshalType "object" field))

/-- Storing a JSON value in a Go `int`: a number is stored when `strconv.ParseInt`
accepts its literal (no fraction, no exponent, in range), `null` leaves the field
as it is, anything else is a type error. -/
def storeInt (field : String) (j : JSONValue) (cur : Int) : Int × Option GoError :=
  match j with
  | .number lit =>
    match parseInt64 lit with
    | some n => (n, none)
    | none => (cur, some (.jsonUnmarshalType ("number " ++ lit) field))
  | .null => (cur, none)
  | .bool _ => (cur, some (.jsonUnmarshalType "bool" field))
  | .string _ => (cur, some (.jsonUnmarshalType "string" field))
  | .array _ => (cur, some (.jsonUnmarshalType "array" field))
  | .object _ => (cur, some (.jsonUnmarshalType "object" field))

/-- `d.saveError`: the first error is kept. -/
def saveError (saved : Option GoError) (err : Option GoError) : Option GoError :=
  match saved with
  | some e => some e
  | none => err

/-- The members of a JSON object, stored one after the other in the struct
(`d.object`): a key that selects no field is skipped, a later member overwrites
an earlier one, and a type error does not stop the decoding. -/
def decodeMembers {α : Type} (fields : List (Field α)) :
    List (String × JSONValue) → α × Option GoError → α × Option GoError
  | [], st => st
  | (key, j) :: rest, st =>
    match findField fields key with
    | none => decodeMembers fields rest st
    | some f => decodeMembers fields rest ((f.store j st.1).1, saveError st.2 (f.store j st.1).2)

/-- A JSON value stored in a struct (`d.value` on the target of `Unmarshal`): an
object fills the fields, `null` changes nothing, any other value is a type error. -/
def decodeStruct {α : Type} (fields : List (Field α)) (j : JSONValue) (v : α) :
    α × Option GoError :=
  match j with
  | .object members => decodeMembers fields members (v, none)
  | .null => (v, none)
  | .bool _ => (v, some (.jsonUnmarshalType "bool" ""))
  | .number _ => (v, some (.jsonUnmarshalType "number" ""))
  | .string _ => (v, some (.jsonUnmarshalType "string" ""))
  | .array _ => (v, some (.jsonUnmarshalType "array" ""))

/-- `json.Unmarshal(data, &v)` for a struct `v`: the struct after the call and
the error returned.  Text that is not JSON leaves `v` untouched. -/
def jsonUnmarshal {α : Type} (fields : List (Field α)) (data : String) (v : α) :
    α × Option GoError :=
  match parseJSON data with
  | .error _ => (v, some .jsonSyntaxError)
  | .ok j => decodeStruct fields j v

/-! ## `json.Marshal` of the request records -/

/-- Digit `n` of `"0123456789abcdef"`. -/
def hexChar (n : Nat) : Char :=
  if n < 10 then Char.ofNat ('0'.toNat + n) else Char.ofNat ('a'.toNat + (n - 10))

/-- How `json.Marshal` writes one character of a string (`appendString` with
`escapeHTML` set). -/
def encodeChar (c : Char) : List Char :=
  if c = '\\' || c = '"' then ['\\', c]
  else if c.toNat = 8 then ['\\', 'b']
  else if c.toNat = 12 then ['\\', 'f']
  else if c = '\n' then ['\\', 'n']
  else if c = '\r' then ['\\', 'r']
  else if c = '\t' then ['\\', 't']
  else if c.toNat < 0x20 || c = '<' || c = '>' || c = '&' then
    ['\\', 'u', '0', '0', hexChar (c.toNat / 16), hexChar (c.toNat % 16)]
  else if c.toNat = 0x2028 || c.toNat = 0x2029 then
    ['\\', 'u', '2', '0', '2', hexChar (c.toNat % 16)]
  else [c]

/-- A Go string as a JSON string literal. -/
def encodeString (s : String) : String :=
  String.mk ('"' :: (s.data.flatMap encodeChar ++ ['"']))

/-! ## The records of `main.go` -/

/-- The six command-line parameters. -/
structure RequestParams where
  AppID : String
  Secret : String
  UserID : String
  TemplateID : String
  Title : String
  Content : String
deriving DecidableEq, Repr

/-- Response of the token endpoint. -/
structure AccessTokenResponse where
  AccessToken : String := ""
  ExpiresIn : Int := 0
deriving DecidableEq, Repr

structure TemplateDataItem where
  Value : String
deriving DecidableEq, Repr

/-- Body of the delivery request.  `Data` is a Go map, kept as its list of
key-value pairs (the keys are distinct). -/
structure TemplateMessageRequest where
  ToUser : String
  TemplateID : String
  URL : String
  Data : List (String × TemplateDataItem)
deriving DecidableEq, Repr

/-- Response of the delivery endpoint. -/
structure WechatAPIResponse where
  Errcode : Int := 0
  Errmsg : String := ""
deriving DecidableEq, Repr

/-- Body of the token request. -/
structure TokenRequestParams where
  AppID : String
  Secret : String
  GrantType : String
  ForceRefresh : Bool
deriving DecidableEq, Repr

/-- The fields of `AccessTokenResponse`, by their `json` tags. -/
def accessTokenResponseFields : List (Field AccessTokenResponse) :=
  [ { name := "access_token",
      store := fun j v =>
        ({ v with AccessToken := (storeString "access_token" j v.AccessToken).1 },
          (storeString "access_token" j v.AccessToken).2) },
    { name := "expires_in",
      store := fun j v =>
        ({ v with ExpiresIn := (storeInt "expires_in" j v.ExpiresIn).1 },
          (storeInt "expires_in" j v.ExpiresIn).2) } ]

/-- The fields of `WechatAPIResponse`, by their `json` tags. -/
def wechatAPIResponseFields : List (Field WechatAPIResponse) :=
  [ { name := "errcode",
      store := fun j v =>
        ({ v with Errcode := (storeInt "errcode" j v.Errcode).1 },
          (storeInt "errcode" j v.Errcode).2) },
    { name := "errmsg",
      store := fun j v =>
        ({ v with Errmsg := (storeString "errmsg" j v.Errmsg).1 },
          (storeString "errmsg" j v.Errmsg).2) } ]

/-- `json.Marshal` of a `TokenRequestParams`: the fields in declaration order.
It has no failing case for this type. -/
def marshalTokenRequestParams (r : TokenRequestParams) : Except GoError String :=
  .ok ("\x7b\"appid\":" ++ encodeString r.AppID
    ++ ",\"secret\":" ++ encodeString r.Secret
    ++ ",\"grant_type\":" ++ encodeString r.GrantType
    ++ ",\"force_refresh\":" ++ (if r.ForceRefresh then "true" else "false") ++ "\x7d")

/-- `json.Marshal` of a `TemplateDataItem`. -/
def marshalTemplateDataItem (d : TemplateDataItem) : String :=
  "\x7b\"value\":" ++ encodeString d.Value ++ "\x7d"

/-- Order of Go strings (`<`): lexicographic. -/
def keyLt : List Char → List Char → Bool
  | [], [] => false
  | [], _ :: _ => true
  | _ :: _, [] => false
  | a :: as, b :: bs => a.toNat < b.toNat || (a.toNat = b.toNat && keyLt as bs)

/-- Insertion of a map entry into a list of entries sorted by key. -/
def insertByKey (e : String × TemplateDataItem) :
    List (String × TemplateDataItem) → List (String × TemplateDataItem)
  | [] => [e]
  | x :: xs => if keyLt x.1.data e.1.data then x :: insertByKey e xs else e :: x :: xs

/-- The entries of a map in the order `json.Marshal` writes them: sorted by key. -/
def sortByKey (m : List (String × TemplateDataItem)) : List (String × TemplateDataItem) :=
  m.foldr insertByKey []

/-- `json.Marshal` of a `TemplateMessageRequest`: the fields in declaration
order, the map as an object with its keys sorted.  It has no failing case for
this type. -/
def marshalTemplateMessageRequest (r : TemplateMessageRequest) : Except GoError String :=
  .ok ("\x7b\"touser\":" ++ encodeString r.ToUser
    ++ ",\"template_id\":" ++ encodeString r.TemplateID
    ++ ",\"url\":" ++ encodeString r.URL
    ++ ",\"data\":\x7b"
    ++ ",".intercalate
        ((sortByKey r.Data).map (fun e => encodeString e.1 ++ ":" ++ marshalTemplateDataItem e.2))
    ++ "\x7d\x7d")

/-! ## The network and the trace of a run -/

/-- An HTTP POST as the program issues it. -/
structure HttpRequest where
  url : String
  contentType : String
  body : String
deriving DecidableEq, Repr

/-- What a run does that the claims speak of, in program order. -/
inductive Event where
  | getAccessTokenCalled (appID secret : String)
  | sendTemplateMessageCalled (accessToken : String) (params : RequestParams)
  | post (req : HttpRequest)
deriving DecidableEq, Repr

/-- A response received by `client.Post`: what `io.ReadAll(resp.Body)` gives, the
whole body or a read error. -/
structure HttpResponse where
  readAll : Except String String

/-- The network: what `client.Post` gives for a request, after the events so far:
a transport error (no response) or a response. -/
structure World where
  post : List Event → HttpRequest → Except String HttpResponse

/-- URL of the token endpoint. -/
def tokenURL : String := "https://api.weixin.qq.com/cgi-bin/stable_token"

/-- URL of the delivery endpoint for a token
(`fmt.Sprintf("...?access_token=%s", accessToken)`). -/
def sendURL (accessToken : String) : String :=
  "https://api.weixin.qq.com/cgi-bin/message/template/send?access_token=" ++ accessToken

/-! ## The program -/

/-- The record `getAccessToken` builds and serialises (lines 154-159). -/
def tokenRequestParams (appID secret : String) : TokenRequestParams :=
  { AppID := appID, Secret := secret, GrantType := "client_credential", ForceRefresh := false }

/-- `getAccessToken` (lines 152-200): the returned pair of token and error, and
the trace after the call. -/
def getAccessToken (w : World) (trace : List Event) (appID secret : String) :
    (String × Option GoError) × List Event :=
  let trace0 := trace ++ [Event.getAccessTokenCalled appID secret]
  match marshalTokenRequestParams (tokenRequestParams appID secret) with
  | .error err => (("", some err), trace0)
  | .ok jsonData =>
    match w.post trace0 ⟨tokenURL, "application/json", jsonData⟩ with
    | .error cause =>
      (("", some (.transport cause)),
        trace0 ++ [Event.post ⟨tokenURL, "application/json", jsonData⟩])
    | .ok resp =>
      match resp.readAll with
      | .error cause =>
        (("", some (.bodyRead cause)),
          trace0 ++ [Event.post ⟨tokenURL, "application/json", jsonData⟩])
      | .ok body =>
        match (jsonUnmarshal accessTokenResponseFields body ({} : AccessTokenResponse)).2 with
        | some err =>
          (("", some err), trace0 ++ [Event.post ⟨tokenURL, "application/json", jsonData⟩])
        | none =>
          (((jsonUnmarshal accessTokenResponseFields body
                ({} : AccessTokenResponse)).1.AccessToken, none),
            trace0 ++ [Event.post ⟨tokenURL, "application/json", jsonData⟩])

/-- The record `sendTemplateMessage` builds and serialises (lines 220-232). -/
def templateMessageRequest (params : RequestParams) : TemplateMessageRequest :=
  { ToUser := params.UserID,
    TemplateID := params.TemplateID,
    URL := "",
    Data := [("title", { Value := params.Title }), ("content", { Value := params.Content })] }

/-- `sendTemplateMessage` (lines 212-272): the returned pair of response and
error, and the trace after the call. -/
def sendTemplateMessage (w : World) (trace : List Event) (accessToken : String)
    (params : RequestParams) : (WechatAPIResponse × Option GoError) × List Event :=
  let trace0 := trace ++ [Event.sendTemplateMessageCalled accessToken params]
  match marshalTemplateMessageRequest (templateMessageRequest params) with
  | .error err => (({}, some err), trace0)
  | .ok jsonData =>
    match w.post trace0 ⟨sendURL accessToken, "application/json", jsonData⟩ with
    | .error cause =>
      (({}, some (.transport cause)),
        trace0 ++ [Event.post ⟨sendURL accessToken, "application/json", jsonData⟩])
    | .ok resp =>
      match resp.readAll with
      | .error cause =>
        (({}, some (.bodyRead cause)),
          trace0 ++ [Event.post ⟨sendURL accessToken, "application/json", jsonData⟩])
      | .ok body =>
        match (jsonUnmarshal wechatAPIResponseFields body ({} : WechatAPIResponse)).2 with
        | some err =>
          (({}, some err),
            trace0 ++ [Event.post ⟨sendURL accessToken, "application/json", jsonData⟩])
        | none =>
          (((jsonUnmarshal wechatAPIResponseFields body ({} : WechatAPIResponse)).1, none),
            trace0 ++ [Event.post ⟨sendURL accessToken, "application/json", jsonData⟩])

/-- How the process ends: `main` returns (exit status 0) or `os.Exit(code)`. -/
inductive ExitStatus where
  | returned
  | exit (code : Int)
deriving DecidableEq, Repr

/-- A run of `main`: how it ends and what it did. -/
structure Run where
  status : ExitStatus
  trace : List Event
deriving DecidableEq, Repr

/-! ### The command line (`flag.Parse`) -/

/-- The six variables the flags are bound to (lines 69-81). -/
structure FlagVars where
  appID : String := ""
  secret : String := ""
  userID : String := ""
  templateID : String := ""
  title : String := ""
  content : String := ""
deriving DecidableEq, Repr

/-- How `flag.Parse` ends, with the values the six variables then hold: it
returns, or it ends the process itself (`flag.CommandLine` is `ExitOnError`)
with status 0 after `-h` or `-help` and status 2 after any other error. -/
inductive FlagOutcome where
  | parsed (vars : FlagVars)
  | exit (code : Int) (vars : FlagVars)
deriving DecidableEq, Repr

/-- The names given to `flag.StringVar` (lines 76-81). -/
def flagDefined (name : String) : Bool :=
  name = "appID" || name = "secret" || name = "userID" || name = "templateID"
    || name = "title" || name = "content"

/-- `flag.Value.Set` of the flag of that name: the variable bound to it takes the
value. -/
def setFlag (vars : FlagVars) (name value : String) : FlagVars :=
  if name = "appID" then { vars with appID := value }
  else if name = "secret" then { vars with secret := value }
  else if name = "userID" then { vars with userID := value }
  else if name = "templateID" then { vars with templateID := value }
  else if name = "title" then { vars with title := value }
  else if name = "content" then { vars with content := value }
  else vars

/-- Splits a text at its first `=`: what precedes it, and what follows it if
there is one. -/
def splitAtEquals : List Char → List Char × Option (List Char)
  | [] => ([], none)
  | c :: cs =>
    if c = '=' then ([], some cs)
    else (c :: (splitAtEquals cs).1, (splitAtEquals cs).2)

/-- What `parseOne` makes of the argument at the head of the command line, before
it looks at the arguments that follow. -/
inductive FlagStep where
  /-- Not a flag (no leading `-`, or `-` alone), or the terminator `--`: the flags
  end here. -/
  | stop
  /-- An error, with the status `flag.Parse` then ends the process with: 0 for
  an undefined `-h` or `-help`, 2 for bad syntax or another undefined flag. -/
  | fail (code : Int)
  /-- A defined flag with its value after `=`. -/
  | set (name value : String)
  /-- A defined flag without `=`: its value is the next argument. -/
  | needValue (name : String)
deriving DecidableEq, Repr

/-- The name and, after `=`, the value of a flag, from its text after the
minuses. -/
def flagNameValue (name : List Char) : FlagStep :=
  match name with
  | [] => .fail 2
  | n0 :: ns =>
    if n0 = '-' || n0 = '=' then .fail 2
    else if flagDefined (String.mk (n0 :: (splitAtEquals ns).1)) then
      match (splitAtEquals ns).2 with
      | some value => .set (String.mk (n0 :: (splitAtEquals ns).1)) (String.mk value)
      | none => .needValue (String.mk (n0 :: (splitAtEquals ns).1))
    else if String.mk (n0 :: (splitAtEquals ns).1) = "help"
        || String.mk (n0 :: (splitAtEquals ns).1) = "h" then .fail 0
    else .fail 2

/-- The first part of `parseOne`: is the argument a flag, and which. -/
def flagStep (s : String) : FlagStep :=
  match s.data with
  | [] => .stop
  | [_] => .stop
  | m :: c :: rest =>
    if m ≠ '-' then .stop
    else if c = '-' then
      if rest.isEmpty then .stop else flagNameValue rest
    else flagNameValue (c :: rest)

/-- `flag.Parse` on the arguments after the program name (`parseOne` repeated),
from the values the variables hold: a flag takes its value after `=` or from the
next argument, and a flag without value is an error. -/
def flagParse : List String → FlagVars → FlagOutcome
  | [], vars => .parsed vars
  | s :: args, vars =>
    match flagStep s with
    | .stop => .parsed vars
    | .fail code => .exit code vars
    | .set name value => flagParse args (setFlag vars name value)
    | .needValue name =>
      match args with
      | [] => .exit 2 vars
      | value :: args1 => flagParse args1 (setFlag vars name value)

/-- `main` (lines 65-140) on the command-line arguments after the program name. -/
def main (w : World) (args : List String) : Run :=
  match flagParse args {} with
  | .exit code _ => { status := .exit code, trace := [] }
  | .parsed ⟨appID, secret, userID, templateID, title, content⟩ =>
    if appID = "" ∨ secret = "" ∨ userID = "" ∨ templateID = "" ∨ title = "" ∨ content = "" then
      { status := .exit 1, trace := [] }
    else
      match getAccessToken w [] appID secret with
      | ((_, some _), trace1) => { status := .exit 1, trace := trace1 }
      | ((token, none), trace1) =>
        match sendTemplateMessage w trace1 token
            { AppID := appID, Secret := secret, UserID := userID, TemplateID := templateID,
              Title := title, Content := content } with
        | ((_, some _), trace2) => { status := .exit 1, trace := trace2 }
        | ((resp, none), trace2) =>
          if resp.Errcode = 0 then { status := .returned, trace := trace2 }
          else { status := .exit 1, trace := trace2 }

/-! ## The shape `json.Unmarshal` expects of a response -/

/-- The Go types of the fields of the two response records. -/
inductive GoKind where
  | string
  | int
deriving DecidableEq, Repr

/-- A JSON value that `json.Unmarshal` accepts for a field of the given Go type:
`null` (the field keeps its value) or a value of the matching JSON type, which
for `int` is a number whose literal `strconv.ParseInt` accepts. -/
def storable : GoKind → JSONValue → Bool
  | _, .null => true
  | .string, .string _ => true
  | .int, .number lit => (parseInt64 lit).isSome
  | _, _ => false

/-- The object key selects the field of the given JSON name: it is the name, or
equals it under case folding. -/
def keySelects (name key : String) : Bool :=
  decide (name = key) || decide (foldName name = foldName key)

/-- An object member whose key selects a field of the record, given by the JSON
names and Go types of its fields, and whose value that field cannot store. -/
def memberMismatch (schema : List (String × GoKind)) (key : String) (val : JSONValue) : Bool :=
  schema.any (fun f => keySelects f.1 key && !storable f.2 val)

/-- A JSON value that does not fit the record: neither an object nor `null`, or an
object with a mismatching member.  An object that lacks a field is not a
mismatch. -/
def shapeMismatch (schema : List (String × GoKind)) : JSONValue → Bool
  | .object members => members.any (fun kv => memberMismatch schema kv.1 kv.2)
  | .null => false
  | _ => true

/-- JSON names and Go types of the fields of `AccessTokenResponse`. -/
def accessTokenResponseSchema : List (String × GoKind) :=
  [("access_token", .string), ("expires_in", .int)]

/-- JSON names and Go types of the fields of `WechatAPIResponse`. -/
def wechatAPIResponseSchema : List (String × GoKind) :=
  [("errcode", .int), ("errmsg", .string)]

/-! ## Networks used as examples -/

/-- A network with both endpoints mocked: every POST to the token endpoint is
answered with the body `tokenBody`, every other POST with `deliveryBody`. -/
def mockWorld (tokenBody deliveryBody : String) : World :=
  { post := fun _ req =>
      if req.url = tokenURL then .ok { readAll := .ok tokenBody }
      else .ok { readAll := .ok deliveryBody } }

/-- A network on which every connection is refused. -/
def unreachableWorld : World :=
  { post := fun _ _ => .error "connection refused" }

/-! ## The JSON reader always finishes -/

theorem skipSpace_length_le (cs : List Char) : (skipSpace cs).length ≤ cs.length := by
  induction cs with
  | nil => simp [skipSpace]
  | cons c cs ih =>
    unfold skipSpace
    split
    · simp; omega
    · simp

theorem skipSpace_cons_length {cs : List Char} {d : Char} {r : List Char}
    (h : skipSpace cs = d :: r) : r.length < cs.length := by
  have := skipSpace_length_le cs
  rw [h] at this
  simpa using this

theorem spanDigits_length (cs : List Char) : (spanDigits cs).2.length ≤ cs.length := by
  induction cs with
  | nil => simp [spanDigits]
  | cons c cs ih =>
    unfold spanDigits
    split
    · simp; omega
    · simp

theorem stripWord_length : ∀ (w cs r : List Char), stripWord w cs = some r → r.length ≤ cs.length := by
  intro w
  induction w with
  | nil => intro cs r h; simp [stripWord] at h; subst h; exact le_refl _
  | cons a w ih =>
    intro cs r h
    cases cs with
    | nil => simp [stripWord] at h
    | cons c cs =>
      simp only [stripWord] at h
      split at h
      · have := ih cs r h; simp; omega
      · simp at h

theorem scanString_length_aux : ∀ (n : Nat) (cs : List Char), cs.length ≤ n →
    ∀ (p : Option Nat) (acc : List Char) (s : String) (r : List Char),
      scanString cs p acc = some (s, r) → r.length < cs.length := by
  intro n
  induction n with
  | zero =>
    intro cs hn p acc s r h
    cases cs with
    | nil => simp [scanString] at h
    | cons c cs => simp at hn
  | succ n ih =>
    intro cs hn p acc s r h
    cases cs with
    | nil => simp [scanString] at h
    | cons c cs =>
      simp only [List.length_cons] at hn ⊢
      unfold scanString at h
      split at h
      · simp only [Option.some.injEq, Prod.mk.injEq] at h
        rw [← h.2]; omega
      · split at h
        · split at h
          · simp at h
          · rename_i e cs1
            simp only [List.length_cons] at hn ⊢
            split at h
            · split at h
              · rename_i h1 h2 h3 h4 cs2
                simp only [List.length_cons] at hn ⊢
                split at h
                · split at h
                  · have := ih cs2 (by omega) _ _ _ _ h; omega
                  · split at h
                    · have := ih cs2 (by omega) _ _ _ _ h; omega
                    · have := ih cs2 (by omega) _ _ _ _ h; omega
                · simp at h
              · simp at h
            · split at h
              · have := ih cs1 (by omega) _ _ _ _ h; omega
              · simp at h
        · split at h
          · simp at h
          · have := ih cs (by omega) _ _ _ _ h; omega

theorem scanString_length {cs : List Char} {p : Option Nat} {acc : List Char}
    {s : String} {r : List Char} (h : scanString cs p acc = some (s, r)) :
    r.length < cs.length :=
  scanString_length_aux cs.length cs (le_refl _) p acc s r h

theorem scanIntPart_length {cs ip r : List Char} (h : scanIntPart cs = some (ip, r)) :
    r.length < cs.length := by
  cases cs with
  | nil => simp [scanIntPart] at h
  | cons c cs =>
    simp only [scanIntPart] at h
    split at h
    · simp only [Option.some.injEq, Prod.mk.injEq] at h
      rw [← h.2]; simp
    · split at h
      · simp only [Option.some.injEq, Prod.mk.injEq] at h
        have := spanDigits_length cs
        rw [← h.2]; simp; omega
      · simp at h

theorem scanFraction_length {cs fp r : List Char} (h : scanFraction cs = some (fp, r)) :
    r.length ≤ cs.length := by
  cases cs with
  | nil => simp [scanFraction] at h; rw [← h.2]
  | cons c cs =>
    simp only [scanFraction] at h
    split at h
    · have hl := spanDigits_length cs
      split at h
      · simp at h
      · rename_i ds rest _ heq
        simp only [Option.some.injEq, Prod.mk.injEq] at h
        rw [heq] at hl
        rw [← h.2]; simp at hl ⊢; omega
    · simp only [Option.some.injEq, Prod.mk.injEq] at h
      rw [← h.2]

theorem scanExpDigits_length {pre cs ep r : List Char}
    (h : scanExpDigits pre cs = some (ep, r)) : r.length ≤ cs.length := by
  unfold scanExpDigits at h
  have hl := spanDigits_length cs
  split at h
  · simp at h
  · rename_i ds rest _ heq
    simp only [Option.some.injEq, Prod.mk.injEq] at h
    rw [heq] at hl
    rw [← h.2]; simpa using hl

theorem scanExponent_length {cs ep r : List Char} (h : scanExponent cs = some (ep, r)) :
    r.length ≤ cs.length := by
  cases cs with
  | nil => simp [scanExponent] at h; rw [← h.2]
  | cons c cs =>
    simp only [scanExponent] at h
    split at h
    · split at h
      · simp at h
      · split at h
        · have := scanExpDigits_length h; simp at this ⊢; omega
        · have := scanExpDigits_length h; simp at this ⊢; omega
    · simp only [Option.some.injEq, Prod.mk.injEq] at h
      rw [← h.2]

theorem scanNumber_length {cs : List Char} {lit : String} {r : List Char}
    (h : scanNumber cs = some (lit, r)) : r.length < cs.length := by
  unfold scanNumber at h
  simp only at h
  split at h
  · simp at h
  · rename_i ip r1 h1
    split at h
    · simp at h
    · rename_i fp r2 h2
      split at h
      · simp at h
      · rename_i ep r3 h3
        simp only [Option.some.injEq, Prod.mk.injEq] at h
        have l1 := scanIntPart_length h1
        have l2 := scanFraction_length h2
        have l3 := scanExponent_length h3
        rw [← h.2]
        have l0 : (match cs with
            | [] => (([] : List Char), ([] : List Char))
            | c :: r => if c = '-' then ([c], r) else ([], c :: r)).2.length ≤ cs.length := by
          cases cs with
          | nil => simp
          | cons c cs => simp only; split <;> simp
        omega

theorem parse_length : ∀ fuel : Nat,
    (∀ depth cs v r, parseValue fuel depth cs = .ok (v, r) → r.length < cs.length) ∧
    (∀ depth cs acc v r, parseElements fuel depth cs acc = .ok (v, r) →
      r.length < cs.length) ∧
    (∀ depth cs acc v r, parseMembers fuel depth cs acc = .ok (v, r) →
      r.length < cs.length) := by
  intro fuel
  induction fuel with
  | zero =>
    refine ⟨?_, ?_, ?_⟩
    · intro depth cs v r h; simp [parseValue] at h
    · intro depth cs acc v r h; simp [parseElements] at h
    · intro depth cs acc v r h; simp [parseMembers] at h
  | succ n ih =>
    obtain ⟨ihV, ihE, ihM⟩ := ih
    refine ⟨?_, ?_, ?_⟩
    · intro depth cs v r h
      cases cs with
      | nil => simp [parseValue] at h
      | cons c cs =>
        simp only [parseValue] at h
        simp only [List.length_cons]
        split at h
        · split at h
          · split at h
            · simp at h
            · rename_i d r0 hs
              have hl := skipSpace_cons_length hs
              split at h
              · simp only [Except.ok.injEq, Prod.mk.injEq] at h
                rw [← h.2]; omega
              · have := ihM _ _ _ _ _ h
                simp only [List.length_cons] at this; omega
          · simp at h
        · split at h
          · split at h
            · split at h
              · simp at h
              · rename_i d r0 hs
                have hl := skipSpace_cons_length hs
                split at h
                · simp only [Except.ok.injEq, Prod.mk.injEq] at h
                  rw [← h.2]; omega
                · have := ihE _ _ _ _ _ h
                  simp only [List.length_cons] at this; omega
            · simp at h
          · split at h
            · split at h
              · rename_i s r0 hs
                simp only [Except.ok.injEq, Prod.mk.injEq] at h
                have := scanString_length hs
                rw [← h.2]; omega
              · simp at h
            · split at h
              · split at h
                · rename_i s r0 hs
                  simp only [Except.ok.injEq, Prod.mk.injEq] at h
                  have := scanNumber_length hs
                  simp only [List.length_cons] at this
                  rw [← h.2]; omega
                · simp at h
              · split at h
                · split at h
                  · rename_i r0 hs
                    simp only [Except.ok.injEq, Prod.mk.injEq] at h
                    have := stripWord_length _ _ _ hs
                    rw [← h.2]; omega
                  · simp at h
                · split at h
                  · split at h
                    · rename_i r0 hs
                      simp only [Except.ok.injEq, Prod.mk.injEq] at h
                      have := stripWord_length _ _ _ hs
                      rw [← h.2]; omega
                    · simp at h
                  · split at h
                    · split at h
                      · rename_i r0 hs
                        simp only [Except.ok.injEq, Prod.mk.injEq] at h
                        have := stripWord_length _ _ _ hs
                        rw [← h.2]; omega
                      · simp at h
                    · simp at h
    · intro depth cs acc v r h
      simp only [parseElements] at h
      split at h
      · simp at h
      · rename_i v0 r0 hv
        have hl := ihV _ _ _ _ hv
        split at h
        · simp at h
        · rename_i d r1 hs
          have hl1 := skipSpace_cons_length hs
          split at h
          · have := ihE _ _ _ _ _ h
            have := skipSpace_length_le r1
            omega
          · split at h
            · simp only [Except.ok.injEq, Prod.mk.injEq] at h
              rw [← h.2]; omega
            · simp at h
    · intro depth cs acc v r h
      cases cs with
      | nil => simp [parseMembers] at h
      | cons q cs =>
        simp only [parseMembers] at h
        simp only [List.length_cons]
        split at h
        · split at h
          · simp at h
          · rename_i key r0 hk
            have hl0 := scanString_length hk
            split at h
            · simp at h
            · rename_i colon r1 hs1
              have hl1 := skipSpace_cons_length hs1
              split at h
              · split at h
                · simp at h
                · rename_i v0 r2 hv
                  have hl2 := ihV _ _ _ _ hv
                  have hl2' := skipSpace_length_le r1
                  split at h
                  · simp at h
                  · rename_i d r3 hs3
                    have hl3 := skipSpace_cons_length hs3
                    split at h
                    · have := ihM _ _ _ _ _ h
                      have := skipSpace_length_le r3
                      omega
                    · split at h
                      · simp only [Except.ok.injEq, Prod.mk.injEq] at h
                        rw [← h.2]; omega
                      · simp at h
              · simp at h
        · simp at h

theorem parse_fuel : ∀ fuel : Nat,
    (∀ depth cs, 2 * cs.length + 1 ≤ fuel →
      parseValue fuel depth cs ≠ .error .outOfFuel) ∧
    (∀ depth cs acc, 2 * cs.length + 2 ≤ fuel →
      parseElements fuel depth cs acc ≠ .error .outOfFuel) ∧
    (∀ depth cs acc, 2 * cs.length + 2 ≤ fuel →
      parseMembers fuel depth cs acc ≠ .error .outOfFuel) := by
  intro fuel
  induction fuel with
  | zero =>
    refine ⟨?_, ?_, ?_⟩
    · intro depth cs h; omega
    · intro depth cs acc h; omega
    · intro depth cs acc h; omega
  | succ n ih =>
    obtain ⟨ihV, ihE, ihM⟩ := ih
    refine ⟨?_, ?_, ?_⟩
    · intro depth cs hf h
      cases cs with
      | nil => simp [parseValue] at h
      | cons c cs =>
        simp only [parseValue] at h
        simp only [List.length_cons] at hf
        split at h
        · split at h
          · split at h
            · simp at h
            · rename_i d r0 hs
              have hl := skipSpace_cons_length hs
              split at h
              · simp at h
              · exact ihM _ _ _ (by simp only [List.length_cons]; omega) h
          · simp at h
        · split at h
          · split at h
            · split at h
              · simp at h
              · rename_i d r0 hs
                have hl := skipSpace_cons_length hs
                split at h
                · simp at h
                · exact ihE _ _ _ (by simp only [List.length_cons]; omega) h
            · simp at h
          · split at h
            · split at h <;> simp at h
            · split at h
              · split at h <;> simp at h
              · split at h
                · split at h <;> simp at h
                · split at h
                  · split at h <;> simp at h
                  · split at h
                    · split at h <;> simp at h
                    · simp at h
    · intro depth cs acc hf h
      simp only [parseElements] at h
      split at h
      · rename_i e hv
        simp only [Except.error.injEq] at h
        subst h
        exact ihV _ _ (by omega) hv
      · rename_i v0 r0 hv
        have hl := (parse_length n).1 _ _ _ _ hv
        split at h
        · simp at h
        · rename_i d r1 hs
          have hl1 := skipSpace_cons_length hs
          split at h
          · have := skipSpace_length_le r1
            exact ihE _ _ _ (by omega) h
          · split at h <;> simp at h
    · intro depth cs acc hf h
      cases cs with
      | nil => simp [parseMembers] at h
      | cons q cs =>
        simp only [parseMembers] at h
        simp only [List.length_cons] at hf
        split at h
        · split at h
          · simp at h
          · rename_i key r0 hk
            have hl0 := scanString_length hk
            split at h
            · simp at h
            · rename_i colon r1 hs1
              have hl1 := skipSpace_cons_length hs1
              have hl2' := skipSpace_length_le r1
              split at h
              · split at h
                · rename_i e hv
                  simp only [Except.error.injEq] at h
                  subst h
                  exact ihV _ _ (by omega) hv
                · rename_i v0 r2 hv
                  have hl2 := (parse_length n).1 _ _ _ _ hv
                  split at h
                  · simp at h
                  · rename_i d r3 hs3
                    have hl3 := skipSpace_cons_length hs3
                    split at h
                    · have := skipSpace_length_le r3
                      exact ihM _ _ _ (by omega) h
                    · split at h <;> simp at h
              · simp at h
        · simp at h

/-- Reading a JSON text never stops for lack of recursion budget: `parseJSON`
either yields the value or reports a syntax error. -/
theorem parseJSON_fuel (text : String) : parseJSON text ≠ .error .outOfFuel := by
  intro h
  unfold parseJSON at h
  split at h
  · rename_i e hv
    simp only [Except.error.injEq] at h
    subst h
    have := skipSpace_length_le text.data
    exact (parse_fuel _).1 _ _ (by omega) hv
  · split at h <;> simp at h

theorem jsonValid_false_iff (text : String) :
    jsonValid text = false ↔ parseJSON text = .error .syntaxError := by
  unfold jsonValid
  constructor
  · intro h
    split at h
    · simp at h
    · rename_i e he
      cases e with
      | syntaxError => exact he
      | outOfFuel => exact absurd he (parseJSON_fuel text)
  · intro h
    rw [h]


/-! ## The two calls and the run of `main` -/

/-- C1: whatever the application id and secret, when the token endpoint answers
the request with a body that `json.Unmarshal` decodes without error to
`{access_token: t, expires_in: n}`, `getAccessToken` returns `t` with a nil
error; `n` plays no part in the result. -/
theorem getAccessToken_returns_decoded_token (w : World) (trace : List Event)
    (appID secret jsonData : String) (resp : HttpResponse) (body t : String) (n : Int)
    (hmarshal : marshalTokenRequestParams (tokenRequestParams appID secret) = .ok jsonData)
    (hpost : w.post (trace ++ [Event.getAccessTokenCalled appID secret])
      ⟨tokenURL, "application/json", jsonData⟩ = .ok resp)
    (hread : resp.readAll = .ok body)
    (hdecode : jsonUnmarshal accessTokenResponseFields body ({} : AccessTokenResponse)
      = ({ AccessToken := t, ExpiresIn := n }, none)) :
    (getAccessToken w trace appID secret).1 = (t, none) := by
  unfold getAccessToken
  simp only [hmarshal, hpost, hread, hdecode]

theorem getAccessToken_returns_decoded_token_witness :
    (getAccessToken
      (mockWorld "\x7b\"access_token\":\"T1\",\"expires_in\":7200\x7d" "") [] "wx1" "sec").1
      = ("T1", none) :=
  getAccessToken_returns_decoded_token
    (mockWorld "\x7b\"access_token\":\"T1\",\"expires_in\":7200\x7d" "") [] "wx1" "sec"
    "\x7b\"appid\":\"wx1\",\"secret\":\"sec\",\"grant_type\":\"client_credential\",\"force_refresh\":false\x7d"
    { readAll := .ok "\x7b\"access_token\":\"T1\",\"expires_in\":7200\x7d" }
    "\x7b\"access_token\":\"T1\",\"expires_in\":7200\x7d" "T1" 7200
    (by rfl) (by rfl) (by rfl) (by decide)

/-- Trace of a call of `sendTemplateMessage`: the call and one POST. -/
theorem sendTemplateMessage_trace (w : World) (trace : List Event) (accessToken : String)
    (p : RequestParams) :
    (sendTemplateMessage w trace accessToken p).2
      = trace ++ [Event.sendTemplateMessageCalled accessToken p,
          Event.post ⟨sendURL accessToken, "application/json",
            "\x7b\"touser\":" ++ encodeString p.UserID
              ++ ",\"template_id\":" ++ encodeString p.TemplateID
              ++ ",\"url\":" ++ encodeString ""
              ++ ",\"data\":\x7b"
              ++ ",".intercalate
                  ((sortByKey [("title", { Value := p.Title }),
                      ("content", { Value := p.Content })]).map
                    (fun e => encodeString e.1 ++ ":" ++ marshalTemplateDataItem e.2))
              ++ "\x7d\x7d"⟩] := by
  unfold sendTemplateMessage
  simp only [marshalTemplateMessageRequest, templateMessageRequest]
  split
  · simp
  · split
    · simp
    · split <;> simp

/-- Trace of a call of `getAccessToken`: the call and one POST. -/
theorem getAccessToken_trace (w : World) (trace : List Event) (a s : String) :
    (getAccessToken w trace a s).2
      = trace ++ [Event.getAccessTokenCalled a s,
          Event.post ⟨tokenURL, "application/json",
            "\x7b\"appid\":" ++ encodeString a
              ++ ",\"secret\":" ++ encodeString s
              ++ ",\"grant_type\":" ++ encodeString "client_credential"
              ++ ",\"force_refresh\":" ++ "false" ++ "\x7d"⟩] := by
  unfold getAccessToken
  simp only [marshalTokenRequestParams, tokenRequestParams]
  split
  · simp
  · split
    · simp
    · split <;> simp

/-- C2: whatever the access token and the request parameters, when the delivery
endpoint answers the request with a body that `json.Unmarshal` decodes without
error to `{errcode: c, errmsg: m}`, `sendTemplateMessage` returns
`WechatAPIResponse{Errcode: c, Errmsg: m}` with a nil error, for every `c`, zero
or not, and `m` is returned as decoded. -/
theorem sendTemplateMessage_returns_decoded_response (w : World) (trace : List Event)
    (accessToken : String) (params : RequestParams) (jsonData : String)
    (resp : HttpResponse) (body : String) (c : Int) (m : String)
    (hmarshal : marshalTemplateMessageRequest (templateMessageRequest params) = .ok jsonData)
    (hpost : w.post (trace ++ [Event.sendTemplateMessageCalled accessToken params])
      ⟨sendURL accessToken, "application/json", jsonData⟩ = .ok resp)
    (hread : resp.readAll = .ok body)
    (hdecode : jsonUnmarshal wechatAPIResponseFields body ({} : WechatAPIResponse)
      = ({ Errcode := c, Errmsg := m }, none)) :
    (sendTemplateMessage w trace accessToken params).1
      = ({ Errcode := c, Errmsg := m }, none) := by
  unfold sendTemplateMessage
  simp only [hmarshal, hpost, hread, hdecode]

theorem sendTemplateMessage_returns_decoded_response_witness :
    (sendTemplateMessage (mockWorld "" "\x7b\"errcode\":0,\"errmsg\":\"ok\"\x7d") [] "T1"
        ⟨"wx1", "sec", "U1", "TPL1", "Hello", "World"⟩).1
      = ({ Errcode := 0, Errmsg := "ok" }, none)
    ∧ (sendTemplateMessage
        (mockWorld "" "\x7b\"errcode\":40001,\"errmsg\":\"invalid credential\"\x7d") [] "T1"
        ⟨"wx1", "sec", "U1", "TPL1", "Hello", "World"⟩).1
      = ({ Errcode := 40001, Errmsg := "invalid credential" }, none) :=
  ⟨sendTemplateMessage_returns_decoded_response
      (mockWorld "" "\x7b\"errcode\":0,\"errmsg\":\"ok\"\x7d") [] "T1"
      ⟨"wx1", "sec", "U1", "TPL1", "Hello", "World"⟩
      "\x7b\"touser\":\"U1\",\"template_id\":\"TPL1\",\"url\":\"\",\"data\":\x7b\"content\":\x7b\"value\":\"World\"\x7d,\"title\":\x7b\"value\":\"Hello\"\x7d\x7d\x7d"
      { readAll := .ok "\x7b\"errcode\":0,\"errmsg\":\"ok\"\x7d" }
      "\x7b\"errcode\":0,\"errmsg\":\"ok\"\x7d" 0 "ok"
      (by rfl) (by rfl) (by rfl) (by decide),
    sendTemplateMessage_returns_decoded_response
      (mockWorld "" "\x7b\"errcode\":40001,\"errmsg\":\"invalid credential\"\x7d") [] "T1"
      ⟨"wx1", "sec", "U1", "TPL1", "Hello", "World"⟩
      "\x7b\"touser\":\"U1\",\"template_id\":\"TPL1\",\"url\":\"\",\"data\":\x7b\"content\":\x7b\"value\":\"World\"\x7d,\"title\":\x7b\"value\":\"Hello\"\x7d\x7d\x7d"
      { readAll := .ok "\x7b\"errcode\":40001,\"errmsg\":\"invalid credential\"\x7d" }
      "\x7b\"errcode\":40001,\"errmsg\":\"invalid credential\"\x7d" 40001 "invalid credential"
      (by rfl) (by rfl) (by rfl) (by decide)⟩

/-- C3: for every `RequestParams` and every access token, `sendTemplateMessage`
issues exactly one POST, to the delivery URL of the token, whose body is the
serialisation of a record with `touser` = `UserID`, `template_id` = `TemplateID`,
`url` = `""` and a `data` map with exactly the keys `title` and `content`, holding
`{value: Title}` and `{value: Content}`; the record is the same whatever `AppID` and
`Secret` are. -/
theorem sendTemplateMessage_request_record (w : World) (trace : List Event)
    (accessToken : String) (p : RequestParams) :
    (templateMessageRequest p).ToUser = p.UserID
    ∧ (templateMessageRequest p).TemplateID = p.TemplateID
    ∧ (templateMessageRequest p).URL = ""
    ∧ (templateMessageRequest p).Data.lookup "title" = some { Value := p.Title }
    ∧ (templateMessageRequest p).Data.lookup "content" = some { Value := p.Content }
    ∧ (templateMessageRequest p).Data.map Prod.fst = ["title", "content"]
    ∧ (∀ appID secret : String,
        templateMessageRequest { p with AppID := appID, Secret := secret }
          = templateMessageRequest p)
    ∧ ∃ jsonData : String,
        marshalTemplateMessageRequest
          { ToUser := p.UserID, TemplateID := p.TemplateID, URL := "",
            Data := [("title", { Value := p.Title }), ("content", { Value := p.Content })] }
          = .ok jsonData
        ∧ (sendTemplateMessage w trace accessToken p).2
          = trace ++ [Event.sendTemplateMessageCalled accessToken p,
              Event.post ⟨sendURL accessToken, "application/json", jsonData⟩] := by
  refine ⟨rfl, rfl, rfl, by rfl, by rfl, rfl, fun _ _ => rfl, ?_⟩
  exact ⟨_, rfl, sendTemplateMessage_trace w trace accessToken p⟩

/-- The delivery request for U1, TPL1, Hello, World on token T1, as text. -/
theorem sendTemplateMessage_request_example (w : World) :
    (sendTemplateMessage w [] "T1" ⟨"wx1", "sec", "U1", "TPL1", "Hello", "World"⟩).2
      = [Event.sendTemplateMessageCalled "T1" ⟨"wx1", "sec", "U1", "TPL1", "Hello", "World"⟩,
          Event.post ⟨"https://api.weixin.qq.com/cgi-bin/message/template/send?access_token=T1",
            "application/json",
            "\x7b\"touser\":\"U1\",\"template_id\":\"TPL1\",\"url\":\"\",\"data\":\x7b\"content\":\x7b\"value\":\"World\"\x7d,\"title\":\x7b\"value\":\"Hello\"\x7d\x7d\x7d"⟩] := by
  rw [sendTemplateMessage_trace]
  decide

/-- C4: whatever the application id and secret, when the body the token endpoint
answers with is not JSON, `getAccessToken` returns the empty string and a non-nil
error (the syntax error of `json.Unmarshal`). -/
theorem getAccessToken_rejects_invalid_json (w : World) (trace : List Event)
    (appID secret jsonData : String) (resp : HttpResponse) (body : String)
    (hmarshal : marshalTokenRequestParams (tokenRequestParams appID secret) = .ok jsonData)
    (hpost : w.post (trace ++ [Event.getAccessTokenCalled appID secret])
      ⟨tokenURL, "application/json", jsonData⟩ = .ok resp)
    (hread : resp.readAll = .ok body)
    (hinvalid : jsonValid body = false) :
    (getAccessToken w trace appID secret).1 = ("", some GoError.jsonSyntaxError) := by
  have hparse := (jsonValid_false_iff body).1 hinvalid
  unfold getAccessToken
  simp only [hmarshal, hpost, hread, jsonUnmarshal, hparse]

theorem getAccessToken_rejects_invalid_json_witness :
    jsonValid "<html>Bad Gateway</html>" = false
    ∧ (getAccessToken (mockWorld "<html>Bad Gateway</html>" "") [] "wx1" "sec").1
      = ("", some GoError.jsonSyntaxError) :=
  ⟨by decide,
    getAccessToken_rejects_invalid_json (mockWorld "<html>Bad Gateway</html>" "") [] "wx1" "sec"
      "\x7b\"appid\":\"wx1\",\"secret\":\"sec\",\"grant_type\":\"client_credential\",\"force_refresh\":false\x7d"
      { readAll := .ok "<html>Bad Gateway</html>" } "<html>Bad Gateway</html>"
      (by rfl) (by rfl) (by rfl) (by decide)⟩

/-- C9: for every application id `a` and secret `s`, `getAccessToken` issues
exactly one POST, to the token endpoint, whose body is the serialisation of the
record `{appid: a, secret: s, grant_type: "client_credential", force_refresh:
false}`. -/
theorem getAccessToken_request_record (w : World) (trace : List Event) (a s : String) :
    tokenRequestParams a s
      = { AppID := a, Secret := s, GrantType := "client_credential", ForceRefresh := false }
    ∧ ∃ jsonData : String,
        marshalTokenRequestParams
          { AppID := a, Secret := s, GrantType := "client_credential", ForceRefresh := false }
          = .ok jsonData
        ∧ (getAccessToken w trace a s).2
          = trace ++ [Event.getAccessTokenCalled a s,
              Event.post ⟨tokenURL, "application/json", jsonData⟩] := by
  exact ⟨rfl, _, rfl, getAccessToken_trace w trace a s⟩

/-- The token request for the credentials wx1 and sec, as text. -/
theorem getAccessToken_request_example (w : World) :
    (getAccessToken w [] "wx1" "sec").2
      = [Event.getAccessTokenCalled "wx1" "sec",
          Event.post ⟨"https://api.weixin.qq.com/cgi-bin/stable_token", "application/json",
            "\x7b\"appid\":\"wx1\",\"secret\":\"sec\",\"grant_type\":\"client_credential\",\"force_refresh\":false\x7d"⟩] := by
  rw [getAccessToken_trace]
  decide

/-- The delivery URL of a token is never the URL of the token endpoint. -/
theorem sendURL_ne_tokenURL (accessToken : String) : sendURL accessToken ≠ tokenURL := by
  intro h
  have h2 := congrArg String.data h
  simp [sendURL, tokenURL, String.data_append] at h2

/-- Every six values are the outcome of `flag.Parse` on some command line: the six
flags, each followed by its value. -/
theorem flagParse_six_flags (a s u t ti c : String) :
    flagParse ["-appID", a, "-secret", s, "-userID", u, "-templateID", t, "-title", ti,
        "-content", c] {}
      = .parsed ⟨a, s, u, t, ti, c⟩ := by
  rfl

theorem flagNameValue_fail_code {name : List Char} {code : Int}
    (h : flagNameValue name = .fail code) : code = 0 ∨ code = 2 := by
  unfold flagNameValue at h
  split at h
  · simp only [FlagStep.fail.injEq] at h
    exact Or.inr h.symm
  · split at h
    · simp only [FlagStep.fail.injEq] at h
      exact Or.inr h.symm
    · split at h
      · split at h <;> simp at h
      · split at h
        · simp only [FlagStep.fail.injEq] at h
          exact Or.inl h.symm
        · simp only [FlagStep.fail.injEq] at h
          exact Or.inr h.symm

theorem flagStep_fail_code {s : String} {code : Int}
    (h : flagStep s = .fail code) : code = 0 ∨ code = 2 := by
  unfold flagStep at h
  split at h
  · simp at h
  · simp at h
  · split at h
    · simp at h
    · split at h
      · split at h
        · simp at h
        · exact flagNameValue_fail_code h
      · exact flagNameValue_fail_code h

theorem flagParse_exit_code_aux : ∀ (n : Nat) (args : List String), args.length ≤ n →
    ∀ (vars : FlagVars) (code : Int) (v : FlagVars),
      flagParse args vars = .exit code v → code = 0 ∨ code = 2 := by
  intro n
  induction n with
  | zero =>
    intro args hn vars code v h
    cases args with
    | nil => simp [flagParse] at h
    | cons s args => simp at hn
  | succ n ih =>
    intro args hn vars code v h
    cases args with
    | nil => simp [flagParse] at h
    | cons s args =>
      simp only [List.length_cons] at hn
      simp only [flagParse] at h
      split at h
      · simp at h
      · rename_i code0 hstep
        simp only [FlagOutcome.exit.injEq] at h
        rw [← h.1]
        exact flagStep_fail_code hstep
      · exact ih args (by omega) _ _ _ h
      · split at h
        · simp only [FlagOutcome.exit.injEq] at h
          exact Or.inr h.1.symm
        · rename_i value args1
          simp only [List.length_cons] at hn
          exact ih args1 (by omega) _ _ _ h

/-- When `flag.Parse` ends the process, it is with status 0 or 2. -/
theorem flagParse_exit_code {args : List String} {vars : FlagVars} {code : Int} {v : FlagVars}
    (h : flagParse args vars = .exit code v) : code = 0 ∨ code = 2 :=
  flagParse_exit_code_aux args.length args (le_refl _) vars code v h

/-- The run of `main` when `flag.Parse` ends the process: nothing else happens. -/
theorem main_of_flag_exit (w : World) (args : List String) (code : Int) (vars : FlagVars)
    (hparse : flagParse args {} = .exit code vars) :
    main w args = { status := .exit code, trace := [] } := by
  unfold main
  rw [hparse]

/-- The run of `main` when `flag.Parse` returns with an empty parameter. -/
theorem main_of_missing (w : World) (args : List String) (vars : FlagVars)
    (hparse : flagParse args {} = .parsed vars)
    (hempty : vars.appID = "" ∨ vars.secret = "" ∨ vars.userID = "" ∨ vars.templateID = ""
      ∨ vars.title = "" ∨ vars.content = "") :
    main w args = { status := .exit 1, trace := [] } := by
  obtain ⟨a, s, u, t, ti, c⟩ := vars
  unfold main
  rw [hparse]
  simp only
  rw [if_pos hempty]

/-- The run of `main` when `flag.Parse` returns with six non-empty parameters, in
terms of the results of the two calls. -/
theorem main_of_nonempty (w : World) (args : List String) (a s u t ti c : String)
    (hparse : flagParse args {} = .parsed ⟨a, s, u, t, ti, c⟩)
    (hne : a ≠ "" ∧ s ≠ "" ∧ u ≠ "" ∧ t ≠ "" ∧ ti ≠ "" ∧ c ≠ "") :
    main w args =
      match (getAccessToken w [] a s).1.2 with
      | some _ => { status := .exit 1, trace := (getAccessToken w [] a s).2 }
      | none =>
        match (sendTemplateMessage w (getAccessToken w [] a s).2 (getAccessToken w [] a s).1.1
            ⟨a, s, u, t, ti, c⟩).1.2 with
        | some _ =>
          { status := .exit 1,
            trace := (sendTemplateMessage w (getAccessToken w [] a s).2
              (getAccessToken w [] a s).1.1 ⟨a, s, u, t, ti, c⟩).2 }
        | none =>
          if (sendTemplateMessage w (getAccessToken w [] a s).2 (getAccessToken w [] a s).1.1
              ⟨a, s, u, t, ti, c⟩).1.1.Errcode = 0 then
            { status := .returned,
              trace := (sendTemplateMessage w (getAccessToken w [] a s).2
                (getAccessToken w [] a s).1.1 ⟨a, s, u, t, ti, c⟩).2 }
          else
            { status := .exit 1,
              trace := (sendTemplateMessage w (getAccessToken w [] a s).2
                (getAccessToken w [] a s).1.1 ⟨a, s, u, t, ti, c⟩).2 } := by
  obtain ⟨h1, h2, h3, h4, h5, h6⟩ := hne
  unfold main
  rw [hparse]
  simp only
  rw [if_neg (by simp [h1, h2, h3, h4, h5, h6])]
  generalize getAccessToken w [] a s = x
  obtain ⟨⟨tok, err⟩, tr⟩ := x
  cases err with
  | some e => rfl
  | none =>
    simp only
    generalize sendTemplateMessage w tr tok ⟨a, s, u, t, ti, c⟩ = y
    obtain ⟨⟨resp, err2⟩, tr2⟩ := y
    cases err2 with
    | some e => rfl
    | none => rfl

/-- C5: in a run of `main` with six non-empty parameters (`flag.Parse` returns
them) in which the POST to the token endpoint fails at transport level, `getAccessToken` returns a non-nil error
(and no token), `main` ends with `os.Exit(1)`, and the run consists of the call
of `getAccessToken` and its one POST: `sendTemplateMessage` is never called and no
request goes to the delivery endpoint. -/
theorem main_token_transport_failure (w : World) (args : List String)
    (a s u t ti c jsonData cause : String)
    (hparse : flagParse args {} = .parsed ⟨a, s, u, t, ti, c⟩)
    (hne : a ≠ "" ∧ s ≠ "" ∧ u ≠ "" ∧ t ≠ "" ∧ ti ≠ "" ∧ c ≠ "")
    (hmarshal : marshalTokenRequestParams (tokenRequestParams a s) = .ok jsonData)
    (hfail : w.post [Event.getAccessTokenCalled a s]
      ⟨tokenURL, "application/json", jsonData⟩ = .error cause) :
    (getAccessToken w [] a s).1 = ("", some (GoError.transport cause))
    ∧ (main w args).status = ExitStatus.exit 1
    ∧ (main w args).trace
        = [Event.getAccessTokenCalled a s,
            Event.post ⟨tokenURL, "application/json", jsonData⟩]
    ∧ (∀ tok p, Event.sendTemplateMessageCalled tok p ∉ (main w args).trace)
    ∧ (∀ req tok, Event.post req ∈ (main w args).trace → req.url ≠ sendURL tok) := by
  have hget : getAccessToken w [] a s
      = (("", some (GoError.transport cause)),
          [Event.getAccessTokenCalled a s,
            Event.post ⟨tokenURL, "application/json", jsonData⟩]) := by
    unfold getAccessToken
    simp only [hmarshal, List.nil_append, hfail]
    rfl
  have hmain : main w args
      = { status := .exit 1,
          trace := [Event.getAccessTokenCalled a s,
            Event.post ⟨tokenURL, "application/json", jsonData⟩] } := by
    rw [main_of_nonempty w args a s u t ti c hparse hne, hget]
  refine ⟨by rw [hget], by rw [hmain], by rw [hmain], ?_, ?_⟩
  · intro tok p hmem
    rw [hmain] at hmem
    simp at hmem
  · intro req tok hmem hurl
    rw [hmain] at hmem
    simp at hmem
    rw [hmem] at hurl
    exact sendURL_ne_tokenURL tok hurl.symm

theorem main_token_transport_failure_witness :
    (getAccessToken unreachableWorld [] "wx1" "sec").1
      = ("", some (GoError.transport "connection refused"))
    ∧ (main unreachableWorld ["-appID", "wx1", "-secret", "sec", "-userID", "U1",
        "-templateID", "TPL1", "-title", "Hello", "-content", "World"]).status
      = ExitStatus.exit 1
    ∧ (main unreachableWorld ["-appID", "wx1", "-secret", "sec", "-userID", "U1",
        "-templateID", "TPL1", "-title", "Hello", "-content", "World"]).trace
        = [Event.getAccessTokenCalled "wx1" "sec",
            Event.post ⟨tokenURL, "application/json",
              "\x7b\"appid\":\"wx1\",\"secret\":\"sec\",\"grant_type\":\"client_credential\",\"force_refresh\":false\x7d"⟩]
    ∧ (∀ tok p, Event.sendTemplateMessageCalled tok p
        ∉ (main unreachableWorld ["-appID", "wx1", "-secret", "sec", "-userID", "U1",
            "-templateID", "TPL1", "-title", "Hello", "-content", "World"]).trace)
    ∧ (∀ req tok,
        Event.post req ∈ (main unreachableWorld ["-appID", "wx1", "-secret", "sec",
          "-userID", "U1", "-templateID", "TPL1", "-title", "Hello", "-content",
          "World"]).trace →
          req.url ≠ sendURL tok) :=
  main_token_transport_failure unreachableWorld
    ["-appID", "wx1", "-secret", "sec", "-userID", "U1", "-templateID", "TPL1",
      "-title", "Hello", "-content", "World"]
    "wx1" "sec" "U1" "TPL1" "Hello" "World"
    "\x7b\"appid\":\"wx1\",\"secret\":\"sec\",\"grant_type\":\"client_credential\",\"force_refresh\":false\x7d"
    "connection refused" (by rfl) (by decide) (by rfl) (by rfl)

/-- C6, the claim as stated fails: with the six parameters given and non-empty, an
undefined flag after them makes `flag.Parse` end the process with status 2, which
is neither a return from `main` nor `os.Exit(1)`; and `-h` after them makes it
end with status 0 although `getAccessToken` was never called. -/
theorem main_flag_error_exit_status :
    flagParse ["-appID", "wx1", "-secret", "sec", "-userID", "U1", "-templateID", "TPL1",
        "-title", "Hello", "-content", "World", "-bogus", "1"] {}
      = .exit 2 ⟨"wx1", "sec", "U1", "TPL1", "Hello", "World"⟩
    ∧ main (mockWorld "\x7b\"access_token\":\"T1\",\"expires_in\":7200\x7d"
          "\x7b\"errcode\":0,\"errmsg\":\"ok\"\x7d")
        ["-appID", "wx1", "-secret", "sec", "-userID", "U1", "-templateID", "TPL1",
          "-title", "Hello", "-content", "World", "-bogus", "1"]
      = { status := .exit 2, trace := [] }
    ∧ flagParse ["-appID", "wx1", "-secret", "sec", "-userID", "U1", "-templateID", "TPL1",
        "-title", "Hello", "-content", "World", "-h"] {}
      = .exit 0 ⟨"wx1", "sec", "U1", "TPL1", "Hello", "World"⟩
    ∧ main (mockWorld "\x7b\"access_token\":\"T1\",\"expires_in\":7200\x7d"
          "\x7b\"errcode\":0,\"errmsg\":\"ok\"\x7d")
        ["-appID", "wx1", "-secret", "sec", "-userID", "U1", "-templateID", "TPL1",
          "-title", "Hello", "-content", "World", "-h"]
      = { status := .exit 0, trace := [] } := by
  decide

/-- C6, amended: a run of `main` in which `flag.Parse` returns with six non-empty
parameters ends by returning from `main` exactly when `getAccessToken` returned no
error, `sendTemplateMessage` returned no error and the returned `Errcode` is 0,
and in every other case it ends with `os.Exit(1)`.  A run in which `flag.Parse`
ends the process ends with the status `flag.Parse` gives, 0 or 2, and neither
function is called. -/
theorem main_exit_status (w : World) (args : List String) :
    (∀ a s u t ti c : String,
      flagParse args {} = .parsed ⟨a, s, u, t, ti, c⟩ →
      (a ≠ "" ∧ s ≠ "" ∧ u ≠ "" ∧ t ≠ "" ∧ ti ≠ "" ∧ c ≠ "") →
      ((main w args).status = ExitStatus.returned ↔
        ((getAccessToken w [] a s).1.2 = none
          ∧ (sendTemplateMessage w (getAccessToken w [] a s).2 (getAccessToken w [] a s).1.1
              ⟨a, s, u, t, ti, c⟩).1.2 = none
          ∧ (sendTemplateMessage w (getAccessToken w [] a s).2 (getAccessToken w [] a s).1.1
              ⟨a, s, u, t, ti, c⟩).1.1.Errcode = 0))
      ∧ ((main w args).status ≠ ExitStatus.returned →
          (main w args).status = ExitStatus.exit 1))
    ∧ (∀ (code : Int) (vars : FlagVars),
      flagParse args {} = .exit code vars →
      (main w args).status = ExitStatus.exit code ∧ (code = 0 ∨ code = 2)
        ∧ (main w args).trace = []) := by
  constructor
  · intro a s u t ti c hparse hne
    rw [main_of_nonempty w args a s u t ti c hparse hne]
    cases hg : (getAccessToken w [] a s).1.2 with
    | some e => simp
    | none =>
      simp only
      cases hs : (sendTemplateMessage w (getAccessToken w [] a s).2
          (getAccessToken w [] a s).1.1 ⟨a, s, u, t, ti, c⟩).1.2 with
      | some e => simp
      | none =>
        simp only
        split <;> simp_all
  · intro code vars hparse
    rw [main_of_flag_exit w args code vars hparse]
    exact ⟨rfl, flagParse_exit_code hparse, rfl⟩

theorem main_exit_status_witness :
    ((main (mockWorld "\x7b\"access_token\":\"T1\",\"expires_in\":7200\x7d"
        "\x7b\"errcode\":0,\"errmsg\":\"ok\"\x7d")
        ["-appID", "wx1", "-secret", "sec", "-userID", "U1", "-templateID", "TPL1",
          "-title", "Hello", "-content", "World"]).status
      = ExitStatus.returned)
    ∧ ((main (mockWorld "\x7b\"access_token\":\"T1\",\"expires_in\":7200\x7d"
        "\x7b\"errcode\":40001,\"errmsg\":\"invalid credential\"\x7d")
        ["-appID", "wx1", "-secret", "sec", "-userID", "U1", "-templateID", "TPL1",
          "-title", "Hello", "-content", "World"]).status
      = ExitStatus.exit 1)
    ∧ ((main (mockWorld "\x7b\"access_token\":\"T1\",\"expires_in\":7200\x7d"
        "\x7b\"errcode\":0,\"errmsg\":\"ok\"\x7d")
        ["-appID", "wx1", "-secret", "sec", "-userID", "U1", "-templateID", "TPL1",
          "-title", "Hello", "-content", "World", "-bogus", "1"]).status
      = ExitStatus.exit 2) :=
  ⟨(((main_exit_status (mockWorld "\x7b\"access_token\":\"T1\",\"expires_in\":7200\x7d"
        "\x7b\"errcode\":0,\"errmsg\":\"ok\"\x7d")
        ["-appID", "wx1", "-secret", "sec", "-userID", "U1", "-templateID", "TPL1",
          "-title", "Hello", "-content", "World"]).1
        "wx1" "sec" "U1" "TPL1" "Hello" "World" (by rfl) (by decide)).1).2 (by decide),
    ((main_exit_status (mockWorld "\x7b\"access_token\":\"T1\",\"expires_in\":7200\x7d"
        "\x7b\"errcode\":40001,\"errmsg\":\"invalid credential\"\x7d")
        ["-appID", "wx1", "-secret", "sec", "-userID", "U1", "-templateID", "TPL1",
          "-title", "Hello", "-content", "World"]).1
        "wx1" "sec" "U1" "TPL1" "Hello" "World" (by rfl) (by decide)).2 (by decide),
    ((main_exit_status (mockWorld "\x7b\"access_token\":\"T1\",\"expires_in\":7200\x7d"
        "\x7b\"errcode\":0,\"errmsg\":\"ok\"\x7d")
        ["-appID", "wx1", "-secret", "sec", "-userID", "U1", "-templateID", "TPL1",
          "-title", "Hello", "-content", "World", "-bogus", "1"]).2
        2 ⟨"wx1", "sec", "U1", "TPL1", "Hello", "World"⟩ (by rfl)).1⟩

/-- C10, the claim as stated fails: on `-h` all six parameters are empty and the
process ends with status 0, not 1 (before any network call); a flag without its
value ends it with status 2. -/
theorem main_help_exits_zero :
    flagParse ["-h"] {} = .exit 0 ⟨"", "", "", "", "", ""⟩
    ∧ main (mockWorld "\x7b\"access_token\":\"T1\",\"expires_in\":7200\x7d"
          "\x7b\"errcode\":0,\"errmsg\":\"ok\"\x7d") ["-h"]
      = { status := .exit 0, trace := [] }
    ∧ flagParse ["-appID", "wx1", "-secret"] {} = .exit 2 ⟨"wx1", "", "", "", "", ""⟩
    ∧ main (mockWorld "\x7b\"access_token\":\"T1\",\"expires_in\":7200\x7d"
          "\x7b\"errcode\":0,\"errmsg\":\"ok\"\x7d") ["-appID", "wx1", "-secret"]
      = { status := .exit 2, trace := [] } := by
  decide

/-- C10, amended: when at least one of the six parameters is the empty string,
`main` ends before any network call, neither `getAccessToken` nor
`sendTemplateMessage` having been called: with `os.Exit(1)` when `flag.Parse` has
returned, and with the status `flag.Parse` gives, 0 or 2, when `flag.Parse` ends
the process itself (which it does without a call or a request whatever the
parameters).  Put the other way round, a run in which anything happened is one in
which `flag.Parse` returned with all six parameters non-empty. -/
theorem main_requires_all_parameters (w : World) (args : List String) :
    (∀ vars : FlagVars, flagParse args {} = .parsed vars →
      (vars.appID = "" ∨ vars.secret = "" ∨ vars.userID = "" ∨ vars.templateID = ""
        ∨ vars.title = "" ∨ vars.content = "") →
      (main w args).status = ExitStatus.exit 1 ∧ (main w args).trace = [])
    ∧ (∀ (code : Int) (vars : FlagVars), flagParse args {} = .exit code vars →
      (main w args).status = ExitStatus.exit code ∧ (code = 0 ∨ code = 2)
        ∧ (main w args).trace = [])
    ∧ (∀ ev, ev ∈ (main w args).trace →
        ∃ vars : FlagVars, flagParse args {} = .parsed vars
          ∧ vars.appID ≠ "" ∧ vars.secret ≠ "" ∧ vars.userID ≠ "" ∧ vars.templateID ≠ ""
          ∧ vars.title ≠ "" ∧ vars.content ≠ "") := by
  refine ⟨?_, ?_, ?_⟩
  · intro vars hparse hempty
    rw [main_of_missing w args vars hparse hempty]
    exact ⟨rfl, rfl⟩
  · intro code vars hparse
    rw [main_of_flag_exit w args code vars hparse]
    exact ⟨rfl, flagParse_exit_code hparse, rfl⟩
  · intro ev hev
    cases hparse : flagParse args {} with
    | exit code vars =>
      rw [main_of_flag_exit w args code vars hparse] at hev
      simp at hev
    | parsed vars =>
      by_cases hempty : vars.appID = "" ∨ vars.secret = "" ∨ vars.userID = ""
          ∨ vars.templateID = "" ∨ vars.title = "" ∨ vars.content = ""
      · rw [main_of_missing w args vars hparse hempty] at hev
        simp at hev
      · exact ⟨vars, rfl, by simpa [not_or] using hempty⟩

theorem main_requires_all_parameters_witness :
    (main (mockWorld "\x7b\"access_token\":\"T1\",\"expires_in\":7200\x7d"
        "\x7b\"errcode\":0,\"errmsg\":\"ok\"\x7d")
        ["-appID", "wx1", "-secret", "sec", "-userID", "U1", "-templateID", "TPL1",
          "-title", "", "-content", "World"]).status
      = ExitStatus.exit 1
    ∧ (main (mockWorld "\x7b\"access_token\":\"T1\",\"expires_in\":7200\x7d"
        "\x7b\"errcode\":0,\"errmsg\":\"ok\"\x7d")
        ["-appID", "wx1", "-secret", "sec", "-userID", "U1", "-templateID", "TPL1",
          "-title", "", "-content", "World"]).trace
      = [] :=
  (main_requires_all_parameters (mockWorld "\x7b\"access_token\":\"T1\",\"expires_in\":7200\x7d"
      "\x7b\"errcode\":0,\"errmsg\":\"ok\"\x7d")
      ["-appID", "wx1", "-secret", "sec", "-userID", "U1", "-templateID", "TPL1",
        "-title", "", "-content", "World"]).1
    ⟨"wx1", "sec", "U1", "TPL1", "", "World"⟩ (by rfl) (by decide)

theorem storeString_error (field : String) (j : JSONValue) (cur : String) :
    (storeString field j cur).2 = none ↔ storable .string j = true := by
  cases j <;> simp [storeString, storable]

theorem storeInt_error (field : String) (j : JSONValue) (cur : Int) :
    (storeInt field j cur).2 = none ↔ storable .int j = true := by
  cases j with
  | number lit =>
    simp only [storeInt, storable]
    cases parseInt64 lit <;> simp
  | _ => simp [storeInt, storable]

/-- Once an error is saved, decoding the remaining members keeps it. -/
theorem decodeMembers_saved {α : Type} (fields : List (Field α))
    (members : List (String × JSONValue)) (v : α) (e : GoError) :
    (decodeMembers fields members (v, some e)).2 = some e := by
  induction members generalizing v with
  | nil => rfl
  | cons kv rest ih =>
    obtain ⟨key, j⟩ := kv
    simp only [decodeMembers]
    split
    · exact ih v
    · simp only [saveError]
      exact ih _

theorem findField_accessTokenResponse (key : String) :
    findField accessTokenResponseFields key
      = if keySelects "access_token" key then accessTokenResponseFields.get? 0
        else if keySelects "expires_in" key then accessTokenResponseFields.get? 1
        else none := by
  by_cases h1 : "access_token" = key
  · subst h1; rfl
  · by_cases h2 : "expires_in" = key
    · subst h2; rfl
    · by_cases h3 : foldName "access_token" = foldName key
      · simp [findField, accessTokenResponseFields, keySelects, List.find?, h1, h2, h3]
      · by_cases h4 : foldName "expires_in" = foldName key
        · simp [findField, accessTokenResponseFields, keySelects, List.find?, h1, h2, h3, h4]
        · simp [findField, accessTokenResponseFields, keySelects, List.find?, h1, h2, h3, h4]

theorem findField_wechatAPIResponse (key : String) :
    findField wechatAPIResponseFields key
      = if keySelects "errcode" key then wechatAPIResponseFields.get? 0
        else if keySelects "errmsg" key then wechatAPIResponseFields.get? 1
        else none := by
  by_cases h1 : "errcode" = key
  · subst h1; rfl
  · by_cases h2 : "errmsg" = key
    · subst h2; rfl
    · by_cases h3 : foldName "errcode" = foldName key
      · simp [findField, wechatAPIResponseFields, keySelects, List.find?, h1, h2, h3]
      · by_cases h4 : foldName "errmsg" = foldName key
        · simp [findField, wechatAPIResponseFields, keySelects, List.find?, h1, h2, h3, h4]
        · simp [findField, wechatAPIResponseFields, keySelects, List.find?, h1, h2, h3, h4]

theorem keySelects_foldName {name key : String} (h : keySelects name key = true) :
    foldName name = foldName key := by
  simp only [keySelects, Bool.or_eq_true, decide_eq_true_eq] at h
  rcases h with h | h
  · rw [h]
  · exact h

theorem memberMismatch_accessTokenResponse (key : String) (j : JSONValue) :
    memberMismatch accessTokenResponseSchema key j
      = if keySelects "access_token" key then !storable .string j
        else if keySelects "expires_in" key then !storable .int j
        else false := by
  by_cases h1 : keySelects "access_token" key = true
  · have h2 : keySelects "expires_in" key = false := by
      cases h : keySelects "expires_in" key with
      | false => rfl
      | true =>
        have := (keySelects_foldName h1).trans (keySelects_foldName h).symm
        exact absurd this (by decide)
    simp [memberMismatch, accessTokenResponseSchema, h1, h2]
  · simp [memberMismatch, accessTokenResponseSchema, h1]

theorem memberMismatch_wechatAPIResponse (key : String) (j : JSONValue) :
    memberMismatch wechatAPIResponseSchema key j
      = if keySelects "errcode" key then !storable .int j
        else if keySelects "errmsg" key then !storable .string j
        else false := by
  by_cases h1 : keySelects "errcode" key = true
  · have h2 : keySelects "errmsg" key = false := by
      cases h : keySelects "errmsg" key with
      | false => rfl
      | true =>
        have := (keySelects_foldName h1).trans (keySelects_foldName h).symm
        exact absurd this (by decide)
    simp [memberMismatch, wechatAPIResponseSchema, h1, h2]
  · simp [memberMismatch, wechatAPIResponseSchema, h1]

/-- Decoding the members of an object into an `AccessTokenResponse` ends without
error exactly when no member mismatches. -/
theorem decodeMembers_accessTokenResponse (members : List (String × JSONValue))
    (v : AccessTokenResponse) :
    (decodeMembers accessTokenResponseFields members (v, none)).2 = none
      ↔ members.any (fun kv => memberMismatch accessTokenResponseSchema kv.1 kv.2) = false := by
  induction members generalizing v with
  | nil => simp [decodeMembers]
  | cons kv rest ih =>
    obtain ⟨key, j⟩ := kv
    simp only [decodeMembers, List.any_cons, Bool.or_eq_false_iff]
    rw [findField_accessTokenResponse, memberMismatch_accessTokenResponse]
    by_cases h1 : keySelects "access_token" key = true
    · simp only [h1, if_true, accessTokenResponseFields, List.get?, saveError]
      cases hs : (storeString "access_token" j v.AccessToken).2 with
      | none =>
        have := (storeString_error "access_token" j v.AccessToken).1 hs
        simp only [this, Bool.not_true, true_and]
        exact ih _
      | some e =>
        have hne : storable .string j ≠ true := fun hst =>
          by rw [(storeString_error "access_token" j v.AccessToken).2 hst] at hs; cases hs
        simp only [decodeMembers_saved, Bool.not_eq_true] at hne ⊢
        simp [hne]
    · simp only [h1, Bool.false_eq_true, if_false]
      by_cases h2 : keySelects "expires_in" key = true
      · simp only [h2, if_true, accessTokenResponseFields, List.get?, saveError]
        cases hs : (storeInt "expires_in" j v.ExpiresIn).2 with
        | none =>
          have := (storeInt_error "expires_in" j v.ExpiresIn).1 hs
          simp only [this, Bool.not_true, true_and]
          exact ih _
        | some e =>
          have hne : storable .int j ≠ true := fun hst =>
            by rw [(storeInt_error "expires_in" j v.ExpiresIn).2 hst] at hs; cases hs
          simp only [decodeMembers_saved, Bool.not_eq_true] at hne ⊢
          simp [hne]
      · simp only [h2, Bool.false_eq_true, if_false, true_and]
        exact ih _

/-- Decoding the members of an object into a `WechatAPIResponse` ends without
error exactly when no member mismatches. -/
theorem decodeMembers_wechatAPIResponse (members : List (String × JSONValue))
    (v : WechatAPIResponse) :
    (decodeMembers wechatAPIResponseFields members (v, none)).2 = none
      ↔ members.any (fun kv => memberMismatch wechatAPIResponseSchema kv.1 kv.2) = false := by
  induction members generalizing v with
  | nil => simp [decodeMembers]
  | cons kv rest ih =>
    obtain ⟨key, j⟩ := kv
    simp only [decodeMembers, List.any_cons, Bool.or_eq_false_iff]
    rw [findField_wechatAPIResponse, memberMismatch_wechatAPIResponse]
    by_cases h1 : keySelects "errcode" key = true
    · simp only [h1, if_true, wechatAPIResponseFields, List.get?, saveError]
      cases hs : (storeInt "errcode" j v.Errcode).2 with
      | none =>
        have := (storeInt_error "errcode" j v.Errcode).1 hs
        simp only [this, Bool.not_true, true_and]
        exact ih _
      | some e =>
        have hne : storable .int j ≠ true := fun hst =>
          by rw [(storeInt_error "errcode" j v.Errcode).2 hst] at hs; cases hs
        simp only [decodeMembers_saved, Bool.not_eq_true] at hne ⊢
        simp [hne]
    · simp only [h1, Bool.false_eq_true, if_false]
      by_cases h2 : keySelects "errmsg" key = true
      · simp only [h2, if_true, wechatAPIResponseFields, List.get?, saveError]
        cases hs : (storeString "errmsg" j v.Errmsg).2 with
        | none =>
          have := (storeString_error "errmsg" j v.Errmsg).1 hs
          simp only [this, Bool.not_true, true_and]
          exact ih _
        | some e =>
          have hne : storable .string j ≠ true := fun hst =>
            by rw [(storeString_error "errmsg" j v.Errmsg).2 hst] at hs; cases hs
          simp only [decodeMembers_saved, Bool.not_eq_true] at hne ⊢
          simp [hne]
      · simp only [h2, Bool.false_eq_true, if_false, true_and]
        exact ih _

/-- On JSON text, `json.Unmarshal` into an `AccessTokenResponse` returns an error
exactly when the value does not fit the record. -/
theorem jsonUnmarshal_accessTokenResponse (body : String) (j : JSONValue)
    (v : AccessTokenResponse) (hparse : parseJSON body = .ok j) :
    (jsonUnmarshal accessTokenResponseFields body v).2 ≠ none
      ↔ shapeMismatch accessTokenResponseSchema j = true := by
  simp only [jsonUnmarshal, hparse]
  cases j with
  | object members =>
    simp only [decodeStruct, shapeMismatch, ne_eq, decodeMembers_accessTokenResponse,
      Bool.not_eq_false]
  | _ => simp [decodeStruct, shapeMismatch]

/-- On JSON text, `json.Unmarshal` into a `WechatAPIResponse` returns an error
exactly when the value does not fit the record. -/
theorem jsonUnmarshal_wechatAPIResponse (body : String) (j : JSONValue)
    (v : WechatAPIResponse) (hparse : parseJSON body = .ok j) :
    (jsonUnmarshal wechatAPIResponseFields body v).2 ≠ none
      ↔ shapeMismatch wechatAPIResponseSchema j = true := by
  simp only [jsonUnmarshal, hparse]
  cases j with
  | object members =>
    simp only [decodeStruct, shapeMismatch, ne_eq, decodeMembers_wechatAPIResponse,
      Bool.not_eq_false]
  | _ => simp [decodeStruct, shapeMismatch]

/-- What `getAccessToken` returns once the token endpoint has answered with a body. -/
theorem getAccessToken_of_body (w : World) (trace : List Event) (a s jsonData : String)
    (resp : HttpResponse) (body : String)
    (hmarshal : marshalTokenRequestParams (tokenRequestParams a s) = .ok jsonData)
    (hpost : w.post (trace ++ [Event.getAccessTokenCalled a s])
      ⟨tokenURL, "application/json", jsonData⟩ = .ok resp)
    (hread : resp.readAll = .ok body) :
    (getAccessToken w trace a s).1 =
      match (jsonUnmarshal accessTokenResponseFields body ({} : AccessTokenResponse)).2 with
      | some err => ("", some err)
      | none =>
        ((jsonUnmarshal accessTokenResponseFields body ({} : AccessTokenResponse)).1.AccessToken,
          none) := by
  unfold getAccessToken
  simp only [hmarshal, hpost, hread]
  split <;> simp_all

/-- What `sendTemplateMessage` returns once the delivery endpoint has answered
with a body. -/
theorem sendTemplateMessage_of_body (w : World) (trace : List Event) (tok : String)
    (p : RequestParams) (jsonData : String) (resp : HttpResponse) (body : String)
    (hmarshal : marshalTemplateMessageRequest (templateMessageRequest p) = .ok jsonData)
    (hpost : w.post (trace ++ [Event.sendTemplateMessageCalled tok p])
      ⟨sendURL tok, "application/json", jsonData⟩ = .ok resp)
    (hread : resp.readAll = .ok body) :
    (sendTemplateMessage w trace tok p).1 =
      match (jsonUnmarshal wechatAPIResponseFields body ({} : WechatAPIResponse)).2 with
      | some err => ({}, some err)
      | none => ((jsonUnmarshal wechatAPIResponseFields body ({} : WechatAPIResponse)).1, none) := by
  unfold sendTemplateMessage
  simp only [hmarshal, hpost, hread]
  split <;> simp_all

/-- An object none of whose keys selects `access_token` leaves `AccessToken` as it was. -/
theorem decodeMembers_accessToken_missing (members : List (String × JSONValue))
    (st : AccessTokenResponse × Option GoError)
    (h : ∀ kv ∈ members, keySelects "access_token" kv.1 = false) :
    (decodeMembers accessTokenResponseFields members st).1.AccessToken = st.1.AccessToken := by
  induction members generalizing st with
  | nil => rfl
  | cons kv rest ih =>
    obtain ⟨key, j⟩ := kv
    have hkey : keySelects "access_token" key = false := h (key, j) (List.mem_cons_self _ _)
    have hrest : ∀ kv ∈ rest, keySelects "access_token" kv.1 = false :=
      fun kv hkv => h kv (List.mem_cons_of_mem _ hkv)
    simp only [decodeMembers]
    rw [findField_accessTokenResponse]
    simp only [hkey, Bool.false_eq_true, if_false]
    by_cases h2 : keySelects "expires_in" key = true
    · simp only [h2, if_true, accessTokenResponseFields, List.get?]
      exact ih _ hrest
    · simp only [h2, if_false]
      exact ih _ hrest

/-- An object none of whose keys selects `errcode` leaves `Errcode` as it was. -/
theorem decodeMembers_errcode_missing (members : List (String × JSONValue))
    (st : WechatAPIResponse × Option GoError)
    (h : ∀ kv ∈ members, keySelects "errcode" kv.1 = false) :
    (decodeMembers wechatAPIResponseFields members st).1.Errcode = st.1.Errcode := by
  induction members generalizing st with
  | nil => rfl
  | cons kv rest ih =>
    obtain ⟨key, j⟩ := kv
    have hkey : keySelects "errcode" key = false := h (key, j) (List.mem_cons_self _ _)
    have hrest : ∀ kv ∈ rest, keySelects "errcode" kv.1 = false :=
      fun kv hkv => h kv (List.mem_cons_of_mem _ hkv)
    simp only [decodeMembers]
    rw [findField_wechatAPIResponse]
    simp only [hkey, Bool.false_eq_true, if_false]
    by_cases h2 : keySelects "errmsg" key = true
    · simp only [h2, if_true, wechatAPIResponseFields, List.get?]
      exact ih _ hrest
    · simp only [h2, if_false]
      exact ih _ hrest

/-- An object none of whose keys selects `errmsg` leaves `Errmsg` as it was. -/
theorem decodeMembers_errmsg_missing (members : List (String × JSONValue))
    (st : WechatAPIResponse × Option GoError)
    (h : ∀ kv ∈ members, keySelects "errmsg" kv.1 = false) :
    (decodeMembers wechatAPIResponseFields members st).1.Errmsg = st.1.Errmsg := by
  induction members generalizing st with
  | nil => rfl
  | cons kv rest ih =>
    obtain ⟨key, j⟩ := kv
    have hkey : keySelects "errmsg" key = false := h (key, j) (List.mem_cons_self _ _)
    have hrest : ∀ kv ∈ rest, keySelects "errmsg" kv.1 = false :=
      fun kv hkv => h kv (List.mem_cons_of_mem _ hkv)
    simp only [decodeMembers]
    rw [findField_wechatAPIResponse]
    by_cases h1 : keySelects "errcode" key = true
    · simp only [h1, if_true, wechatAPIResponseFields, List.get?]
      exact ih _ hrest
    · simp only [h1, hkey, Bool.false_eq_true, if_false]
      exact ih _ hrest

/-- C8, the claim as stated fails: the body `{}` is JSON and has none of the
fields, and both functions return the zero values with a nil error. -/
theorem missing_fields_are_defaulted :
    jsonValid "\x7b\x7d" = true
    ∧ (getAccessToken (mockWorld "\x7b\x7d" "\x7b\x7d") [] "wx1" "sec").1 = ("", none)
    ∧ (sendTemplateMessage (mockWorld "\x7b\x7d" "\x7b\x7d") [] "T1"
        ⟨"wx1", "sec", "U1", "TPL1", "Hello", "World"⟩).1
      = ({ Errcode := 0, Errmsg := "" }, none) := by
  decide

/-- C8, amended: when the body of the response is JSON, `getAccessToken` and
`sendTemplateMessage` each return a non-nil error (with the empty token, the zero
record) exactly when the value does not fit the record: it is neither an object
nor `null`, or it is an object in which a member whose key selects a field has a
value the field cannot store.  A field that is missing is not an error: when no
key of the object selects it, the field is returned with its zero value. -/
theorem unmarshal_error_iff_shape_mismatch :
    (∀ (w : World) (trace : List Event) (a s jsonData : String) (resp : HttpResponse)
        (body : String) (j : JSONValue),
        marshalTokenRequestParams (tokenRequestParams a s) = .ok jsonData →
        w.post (trace ++ [Event.getAccessTokenCalled a s])
          ⟨tokenURL, "application/json", jsonData⟩ = .ok resp →
        resp.readAll = .ok body →
        parseJSON body = .ok j →
        (((getAccessToken w trace a s).1.2 ≠ none
            ↔ shapeMismatch accessTokenResponseSchema j = true)
          ∧ ((getAccessToken w trace a s).1.2 ≠ none → (getAccessToken w trace a s).1.1 = "")
          ∧ (∀ members, j = .object members →
              (∀ kv ∈ members, keySelects "access_token" kv.1 = false) →
              (getAccessToken w trace a s).1.1 = "")))
    ∧ (∀ (w : World) (trace : List Event) (tok : String) (p : RequestParams)
        (jsonData : String) (resp : HttpResponse) (body : String) (j : JSONValue),
        marshalTemplateMessageRequest (templateMessageRequest p) = .ok jsonData →
        w.post (trace ++ [Event.sendTemplateMessageCalled tok p])
          ⟨sendURL tok, "application/json", jsonData⟩ = .ok resp →
        resp.readAll = .ok body →
        parseJSON body = .ok j →
        (((sendTemplateMessage w trace tok p).1.2 ≠ none
            ↔ shapeMismatch wechatAPIResponseSchema j = true)
          ∧ ((sendTemplateMessage w trace tok p).1.2 ≠ none →
              (sendTemplateMessage w trace tok p).1.1 = { Errcode := 0, Errmsg := "" })
          ∧ (∀ members, j = .object members →
              ((∀ kv ∈ members, keySelects "errcode" kv.1 = false) →
                (sendTemplateMessage w trace tok p).1.1.Errcode = 0)
              ∧ ((∀ kv ∈ members, keySelects "errmsg" kv.1 = false) →
                (sendTemplateMessage w trace tok p).1.1.Errmsg = "")))) := by
  constructor
  · intro w trace a s jsonData resp body j hm hpost hread hparse
    have hres := getAccessToken_of_body w trace a s jsonData resp body hm hpost hread
    have hiff := jsonUnmarshal_accessTokenResponse body j {} hparse
    have hdec : jsonUnmarshal accessTokenResponseFields body ({} : AccessTokenResponse)
        = decodeStruct accessTokenResponseFields j {} := by
      simp only [jsonUnmarshal, hparse]
    cases herr : (jsonUnmarshal accessTokenResponseFields body ({} : AccessTokenResponse)).2 with
    | none =>
      rw [herr] at hres hiff
      simp only at hres
      rw [hres, hdec]
      refine ⟨?_, ?_, ?_⟩
      · simpa using hiff
      · intro h; exact absurd rfl h
      · intro members hj hmiss
        subst hj
        exact decodeMembers_accessToken_missing members _ hmiss
    | some e =>
      rw [herr] at hres hiff
      simp only at hres
      rw [hres]
      refine ⟨?_, ?_, ?_⟩
      · simpa using hiff
      · intro _; rfl
      · intro _ _ _; rfl
  · intro w trace tok p jsonData resp body j hm hpost hread hparse
    have hres := sendTemplateMessage_of_body w trace tok p jsonData resp body hm hpost hread
    have hiff := jsonUnmarshal_wechatAPIResponse body j {} hparse
    have hdec : jsonUnmarshal wechatAPIResponseFields body ({} : WechatAPIResponse)
        = decodeStruct wechatAPIResponseFields j {} := by
      simp only [jsonUnmarshal, hparse]
    cases herr : (jsonUnmarshal wechatAPIResponseFields body ({} : WechatAPIResponse)).2 with
    | none =>
      rw [herr] at hres hiff
      simp only at hres
      rw [hres, hdec]
      refine ⟨?_, ?_, ?_⟩
      · simpa using hiff
      · intro h; exact absurd rfl h
      · intro members hj
        subst hj
        exact ⟨fun hmiss => decodeMembers_errcode_missing members _ hmiss,
          fun hmiss => decodeMembers_errmsg_missing members _ hmiss⟩
    | some e =>
      rw [herr] at hres hiff
      simp only at hres
      rw [hres]
      refine ⟨?_, ?_, ?_⟩
      · simpa using hiff
      · intro _; rfl
      · intro _ _; exact ⟨fun _ => rfl, fun _ => rfl⟩

theorem unmarshal_error_iff_shape_mismatch_witness :
    (getAccessToken (mockWorld "\x7b\"access_token\":12345,\"expires_in\":7200\x7d" "") []
        "wx1" "sec").1.2 ≠ none
    ∧ (sendTemplateMessage (mockWorld "" "[0,\"ok\"]") [] "T1"
        ⟨"wx1", "sec", "U1", "TPL1", "Hello", "World"⟩).1.2 ≠ none :=
  ⟨((unmarshal_error_iff_shape_mismatch.1
        (mockWorld "\x7b\"access_token\":12345,\"expires_in\":7200\x7d" "") [] "wx1" "sec"
        "\x7b\"appid\":\"wx1\",\"secret\":\"sec\",\"grant_type\":\"client_credential\",\"force_refresh\":false\x7d"
        { readAll := .ok "\x7b\"access_token\":12345,\"expires_in\":7200\x7d" }
        "\x7b\"access_token\":12345,\"expires_in\":7200\x7d"
        (.object [("access_token", .number "12345"), ("expires_in", .number "7200")])
        (by rfl) (by rfl) (by rfl) (by rfl)).1).2 (by decide),
    ((unmarshal_error_iff_shape_mismatch.2
        (mockWorld "" "[0,\"ok\"]") [] "T1" ⟨"wx1", "sec", "U1", "TPL1", "Hello", "World"⟩
        "\x7b\"touser\":\"U1\",\"template_id\":\"TPL1\",\"url\":\"\",\"data\":\x7b\"content\":\x7b\"value\":\"World\"\x7d,\"title\":\x7b\"value\":\"Hello\"\x7d\x7d\x7d"
        { readAll := .ok "[0,\"ok\"]" } "[0,\"ok\"]"
        (.array [.number "0", .string "ok"])
        (by rfl) (by rfl) (by rfl) (by rfl)).1).2 (by decide)⟩

/-- C7, the claim as stated fails: the token endpoint answers an unknown
application id with an error record, which has no `access_token`;
`getAccessToken` returns the empty string with a nil error, and `main` calls
`sendTemplateMessage` with the empty token and issues the delivery request. -/
theorem main_passes_empty_token :
    (getAccessToken
        (mockWorld "\x7b\"errcode\":40013,\"errmsg\":\"invalid appid\"\x7d"
          "\x7b\"errcode\":41001,\"errmsg\":\"access_token missing\"\x7d")
        [] "wx1" "sec").1 = ("", none)
    ∧ (main
        (mockWorld "\x7b\"errcode\":40013,\"errmsg\":\"invalid appid\"\x7d"
          "\x7b\"errcode\":41001,\"errmsg\":\"access_token missing\"\x7d")
        ["-appID", "wx1", "-secret", "sec", "-userID", "U1", "-templateID", "TPL1",
          "-title", "Hello", "-content", "World"]).trace
      = [Event.getAccessTokenCalled "wx1" "sec",
          Event.post ⟨"https://api.weixin.qq.com/cgi-bin/stable_token", "application/json",
            "\x7b\"appid\":\"wx1\",\"secret\":\"sec\",\"grant_type\":\"client_credential\",\"force_refresh\":false\x7d"⟩,
          Event.sendTemplateMessageCalled "" ⟨"wx1", "sec", "U1", "TPL1", "Hello", "World"⟩,
          Event.post
            ⟨"https://api.weixin.qq.com/cgi-bin/message/template/send?access_token=",
              "application/json",
              "\x7b\"touser\":\"U1\",\"template_id\":\"TPL1\",\"url\":\"\",\"data\":\x7b\"content\":\x7b\"value\":\"World\"\x7d,\"title\":\x7b\"value\":\"Hello\"\x7d\x7d\x7d"⟩] := by
  decide

/-- C7, amended: in a run of `main` in which `flag.Parse` returns six non-empty
parameters,
`sendTemplateMessage` is called exactly when `getAccessToken` returned a nil
error, with the token `getAccessToken` returned, empty or not, and the delivery
request is then issued on that token; when `getAccessToken` returned an error the
run ends with `os.Exit(1)` and no request has gone to the delivery endpoint.  In
particular, when the body of the token response decodes without error to a record
with the empty `AccessToken` (the field is empty or absent), `sendTemplateMessage`
is called with the empty token and the delivery request is issued. -/
theorem main_sender_called_iff_token_fetched (w : World) (args : List String)
    (a s u t ti c : String)
    (hparse : flagParse args {} = .parsed ⟨a, s, u, t, ti, c⟩)
    (hne : a ≠ "" ∧ s ≠ "" ∧ u ≠ "" ∧ t ≠ "" ∧ ti ≠ "" ∧ c ≠ "") :
    (∀ tok p, Event.sendTemplateMessageCalled tok p ∈ (main w args).trace
        ↔ ((getAccessToken w [] a s).1 = (tok, none) ∧ p = ⟨a, s, u, t, ti, c⟩))
    ∧ (∀ tok, (getAccessToken w [] a s).1 = (tok, none) →
        ∃ body, Event.post ⟨sendURL tok, "application/json", body⟩
          ∈ (main w args).trace)
    ∧ ((getAccessToken w [] a s).1.2 ≠ none →
        (main w args).status = ExitStatus.exit 1
        ∧ ∀ req tok, Event.post req ∈ (main w args).trace → req.url ≠ sendURL tok)
    ∧ (∀ (jsonData : String) (resp : HttpResponse) (body : String) (n : Int),
        marshalTokenRequestParams (tokenRequestParams a s) = .ok jsonData →
        w.post [Event.getAccessTokenCalled a s]
          ⟨tokenURL, "application/json", jsonData⟩ = .ok resp →
        resp.readAll = .ok body →
        jsonUnmarshal accessTokenResponseFields body ({} : AccessTokenResponse)
          = ({ AccessToken := "", ExpiresIn := n }, none) →
        Event.sendTemplateMessageCalled "" ⟨a, s, u, t, ti, c⟩ ∈ (main w args).trace
        ∧ ∃ sent, Event.post ⟨sendURL "", "application/json", sent⟩
            ∈ (main w args).trace) := by
  suffices h123 :
      (∀ tok p, Event.sendTemplateMessageCalled tok p ∈ (main w args).trace
          ↔ ((getAccessToken w [] a s).1 = (tok, none) ∧ p = ⟨a, s, u, t, ti, c⟩))
      ∧ (∀ tok, (getAccessToken w [] a s).1 = (tok, none) →
          ∃ body, Event.post ⟨sendURL tok, "application/json", body⟩
            ∈ (main w args).trace)
      ∧ ((getAccessToken w [] a s).1.2 ≠ none →
          (main w args).status = ExitStatus.exit 1
          ∧ ∀ req tok, Event.post req ∈ (main w args).trace → req.url ≠ sendURL tok) by
    refine ⟨h123.1, h123.2.1, h123.2.2, ?_⟩
    intro jsonData resp body n hm hpost hread hdecode
    have hres := getAccessToken_of_body w [] a s jsonData resp body hm hpost hread
    rw [hdecode] at hres
    simp only at hres
    exact ⟨(h123.1 "" ⟨a, s, u, t, ti, c⟩).2 ⟨hres, rfl⟩, h123.2.1 "" hres⟩
  have hmain := main_of_nonempty w args a s u t ti c hparse hne
  have hgt := getAccessToken_trace w [] a s
  cases hg : (getAccessToken w [] a s).1.2 with
  | some e =>
    rw [hg] at hmain
    simp only at hmain
    rw [hmain, hgt]
    refine ⟨?_, ?_, ?_⟩
    · intro tok p
      constructor
      · intro hmem; simp at hmem
      · rintro ⟨h1, _⟩
        rw [h1] at hg; cases hg
    · intro tok h1
      rw [h1] at hg; cases hg
    · intro _
      refine ⟨rfl, ?_⟩
      intro req tok hmem hurl
      simp at hmem
      rw [hmem] at hurl
      exact sendURL_ne_tokenURL tok hurl.symm
  | none =>
    rw [hg] at hmain
    simp only at hmain
    have hst := sendTemplateMessage_trace w (getAccessToken w [] a s).2
      (getAccessToken w [] a s).1.1 ⟨a, s, u, t, ti, c⟩
    have htrace : (main w args).trace
        = (sendTemplateMessage w (getAccessToken w [] a s).2 (getAccessToken w [] a s).1.1
            ⟨a, s, u, t, ti, c⟩).2 := by
      rw [hmain]
      split
      · rfl
      · split <;> rfl
    rw [htrace, hst, hgt]
    have hpair : ∀ tok, (getAccessToken w [] a s).1 = (tok, none)
        ↔ (getAccessToken w [] a s).1.1 = tok := by
      intro tok
      constructor
      · intro h; rw [h]
      · intro h
        exact Prod.ext h hg
    refine ⟨?_, ?_, ?_⟩
    · intro tok p
      rw [hpair]
      simp only [List.nil_append, List.cons_append, List.mem_cons, List.mem_singleton,
        List.mem_nil_iff, or_false, Event.sendTemplateMessageCalled.injEq, false_or,
        reduceCtorEq]
      constructor
      · rintro ⟨h1, h2⟩; exact ⟨h1.symm, h2⟩
      · rintro ⟨h1, h2⟩; exact ⟨h1.symm, h2⟩
    · intro tok h1
      rw [(hpair tok).1 h1]
      exact ⟨_, List.mem_append_right _ (List.mem_cons_of_mem _ (List.mem_singleton.2 rfl))⟩
    · intro h; exact absurd rfl h

theorem main_sender_called_iff_token_fetched_witness :
    Event.sendTemplateMessageCalled "" ⟨"wx1", "sec", "U1", "TPL1", "Hello", "World"⟩
      ∈ (main (mockWorld "\x7b\"access_token\":\"\",\"expires_in\":7200\x7d"
          "\x7b\"errcode\":41001,\"errmsg\":\"access_token missing\"\x7d")
          ["-appID", "wx1", "-secret", "sec", "-userID", "U1", "-templateID", "TPL1",
          "-title", "Hello", "-content", "World"]).trace :=
  ((main_sender_called_iff_token_fetched
      (mockWorld "\x7b\"access_token\":\"\",\"expires_in\":7200\x7d"
        "\x7b\"errcode\":41001,\"errmsg\":\"access_token missing\"\x7d")
      ["-appID", "wx1", "-secret", "sec", "-userID", "U1", "-templateID", "TPL1",
        "-title", "Hello", "-content", "World"]
      "wx1" "sec" "U1" "TPL1" "Hello" "World" (by rfl) (by decide)).1 ""
      ⟨"wx1", "sec", "U1", "TPL1", "Hello", "World"⟩).2 ⟨by decide, rfl⟩

end WxPush
